import Mathlib

/-!
Shallow embedding of the `easel` animation engine (Rust) in Lean 4.

Modelling conventions:
* The engine is generic over a `Float` backend (`f32`/`f64`) and a `Lerp`
  value type; we embed the scalar instantiation with the idealized real
  numbers `ℝ` standing for the float type, so arithmetic is exact.
  Numeric literals such as `1.70158` are read as exact rationals.
* Rust `u32` tick counters are modelled as `ℕ`; the saturating operations
  the source uses (`saturating_add`, `saturating_mul`) are modelled
  explicitly with the `u32::MAX` bound where the source uses them.
* A method `fn tick(&mut self) -> T` becomes a pure function
  `tick : S → S × T` returning the updated state and the returned value.
* A Rust `assert!` / panicking path becomes an `Option` result (`none`
  models the panic), where a claim depends on it (`Sequence`).
-/

namespace Easel

noncomputable section

/-- Playback state of a tween (src/state.rs `TweenState`). -/
inductive TweenState where
  | Idle
  | Playing
  | Paused
  | Finished
  deriving DecidableEq

/-- Loop policy (src/loop_mode.rs `LoopMode`); `u32` counts become `ℕ`. -/
inductive LoopMode where
  | Once
  | Count (n : ℕ)
  | Infinite
  | PingPong
  | PingPongCount (n : ℕ)
  deriving DecidableEq

/-- Playback direction (src/loop_mode.rs `PlayDirection`). -/
inductive PlayDirection where
  | Forward
  | Backward
  deriving DecidableEq

/-- Construction errors (src/error.rs `TweenError`). -/
inductive TweenError where
  | EmptyKeyframes
  | InvalidDuration
  | KeyframeOutOfOrder (index : ℕ) (tick : ℕ) (prev_tick : ℕ)
  | InvalidBezierControl
  deriving DecidableEq

/-- The `u32::MAX` saturation bound. -/
def UMAX : ℕ := 2 ^ 32 - 1

/-- Rust `u32::saturating_add`. -/
def satAdd (a b : ℕ) : ℕ := min (a + b) UMAX

/-- Rust `u32::saturating_mul`. -/
def satMul (a b : ℕ) : ℕ := min (a * b) UMAX

/-- Default `Float::clamp`: `self.max(min).min(max)` (src/float.rs). -/
def fclamp (x lo hi : ℝ) : ℝ := min (max x lo) hi

/-- Scalar `Lerp` instance: `*self + (*other - *self) * t` (src/lerp.rs). -/
def flerp (a b t : ℝ) : ℝ := a + (b - a) * t

/-! Easing curve functions, from src/easing.rs. Each is a direct
transcription with `F = ℝ`; `from_f32` constants are exact rationals. -/

/-- src/easing.rs `ease_in_quad`. -/
def ease_in_quad (t : ℝ) : ℝ := t * t

/-- src/easing.rs `ease_out_quad`. -/
def ease_out_quad (t : ℝ) : ℝ :=
  let u := 1 - t
  1 - u * u

/-- src/easing.rs `ease_in_out_quad`. -/
def ease_in_out_quad (t : ℝ) : ℝ :=
  if t < 1 / 2 then 2 * t * t
  else
    let u := -2 * t + 2
    1 - u * u / 2

/-- src/easing.rs `ease_in_cubic`. -/
def ease_in_cubic (t : ℝ) : ℝ := t * t * t

/-- src/easing.rs `ease_out_cubic`. -/
def ease_out_cubic (t : ℝ) : ℝ :=
  let u := 1 - t
  1 - u * u * u

/-- src/easing.rs `ease_in_out_cubic`. -/
def ease_in_out_cubic (t : ℝ) : ℝ :=
  if t < 1 / 2 then 4 * t * t * t
  else
    let u := -2 * t + 2
    1 - u * u * u / 2

/-- src/easing.rs `ease_in_quart`. -/
def ease_in_quart (t : ℝ) : ℝ := t * t * t * t

/-- src/easing.rs `ease_out_quart`. -/
def ease_out_quart (t : ℝ) : ℝ :=
  let u := 1 - t
  1 - u * u * u * u

/-- src/easing.rs `ease_in_out_quart`. -/
def ease_in_out_quart (t : ℝ) : ℝ :=
  if t < 1 / 2 then 8 * t * t * t * t
  else
    let u := -2 * t + 2
    1 - u * u * u * u / 2

/-- src/easing.rs `ease_in_quint`. -/
def ease_in_quint (t : ℝ) : ℝ := t * t * t * t * t

/-- src/easing.rs `ease_out_quint`. -/
def ease_out_quint (t : ℝ) : ℝ :=
  let u := 1 - t
  1 - u * u * u * u * u

/-- src/easing.rs `ease_in_out_quint`. -/
def ease_in_out_quint (t : ℝ) : ℝ :=
  if t < 1 / 2 then 16 * t * t * t * t * t
  else
    let u := -2 * t + 2
    1 - u * u * u * u * u / 2

/-- src/easing.rs `ease_in_sine`. -/
def ease_in_sine (t : ℝ) : ℝ := 1 - Real.cos (t * Real.pi / 2)

/-- src/easing.rs `ease_out_sine`. -/
def ease_out_sine (t : ℝ) : ℝ := Real.sin (t * Real.pi / 2)

/-- src/easing.rs `ease_in_out_sine`. -/
def ease_in_out_sine (t : ℝ) : ℝ := -(Real.cos (Real.pi * t) - 1) / 2

/-- src/easing.rs `ease_in_expo`. -/
def ease_in_expo (t : ℝ) : ℝ :=
  if t = 0 then 0 else (2 : ℝ) ^ (10 * t - 10)

/-- src/easing.rs `ease_out_expo`. -/
def ease_out_expo (t : ℝ) : ℝ :=
  if t = 1 then 1 else 1 - (2 : ℝ) ^ (-10 * t)

/-- src/easing.rs `ease_in_out_expo`. -/
def ease_in_out_expo (t : ℝ) : ℝ :=
  if t = 0 then 0
  else if t = 1 then 1
  else if t < 1 / 2 then (2 : ℝ) ^ (20 * t - 10) / 2
  else (2 - (2 : ℝ) ^ (-20 * t + 10)) / 2

/-- src/easing.rs `ease_in_circ`. -/
def ease_in_circ (t : ℝ) : ℝ := 1 - Real.sqrt (1 - t * t)

/-- src/easing.rs `ease_out_circ`. -/
def ease_out_circ (t : ℝ) : ℝ :=
  let u := t - 1
  Real.sqrt (1 - u * u)

/-- src/easing.rs `ease_in_out_circ`. -/
def ease_in_out_circ (t : ℝ) : ℝ :=
  if t < 1 / 2 then
    let u := 2 * t
    (1 - Real.sqrt (1 - u * u)) / 2
  else
    let u := -2 * t + 2
    (Real.sqrt (1 - u * u) + 1) / 2

/-- src/easing.rs `ease_in_back`. -/
def ease_in_back (t : ℝ) : ℝ :=
  let c1 : ℝ := 1.70158
  let c3 := c1 + 1
  c3 * t * t * t - c1 * t * t

/-- src/easing.rs `ease_out_back`. -/
def ease_out_back (t : ℝ) : ℝ :=
  let c1 : ℝ := 1.70158
  let c3 := c1 + 1
  let u := t - 1
  1 + c3 * u * u * u + c1 * u * u

/-- src/easing.rs `ease_in_out_back`. -/
def ease_in_out_back (t : ℝ) : ℝ :=
  let c1 : ℝ := 1.70158
  let c2 := c1 * 1.525
  if t < 1 / 2 then
    let u := 2 * t
    (u * u * ((c2 + 1) * u - c2)) / 2
  else
    let u := 2 * t - 2
    (u * u * ((c2 + 1) * u + c2) + 2) / 2

/-- src/easing.rs `ease_in_elastic`. -/
def ease_in_elastic (t : ℝ) : ℝ :=
  if t = 0 ∨ t = 1 then t
  else
    let c4 := 2 * Real.pi / 3
    (-((2 : ℝ) ^ (10 * t - 10))) * Real.sin ((10 * t - 10.75) * c4)

/-- src/easing.rs `ease_out_elastic`. -/
def ease_out_elastic (t : ℝ) : ℝ :=
  if t = 0 ∨ t = 1 then t
  else
    let c4 := 2 * Real.pi / 3
    (2 : ℝ) ^ (-10 * t) * Real.sin ((10 * t - 0.75) * c4) + 1

/-- src/easing.rs `ease_in_out_elastic`. -/
def ease_in_out_elastic (t : ℝ) : ℝ :=
  if t = 0 ∨ t = 1 then t
  else
    let c5 := 2 * Real.pi / 4.5
    if t < 1 / 2 then
      -((2 : ℝ) ^ (20 * t - 10) * Real.sin ((20 * t - 11.125) * c5)) / 2
    else
      ((2 : ℝ) ^ (-20 * t + 10) * Real.sin ((20 * t - 11.125) * c5)) / 2 + 1

/-- src/easing.rs `ease_out_bounce`. -/
def ease_out_bounce (t : ℝ) : ℝ :=
  let n1 : ℝ := 7.5625
  let d1 : ℝ := 2.75
  if t < 1 / d1 then n1 * t * t
  else if t < 2 / d1 then
    let u := t - 1.5 / d1
    n1 * u * u + 0.75
  else if t < 2.5 / d1 then
    let u := t - 2.25 / d1
    n1 * u * u + 0.9375
  else
    let u := t - 2.625 / d1
    n1 * u * u + 0.984375

/-- src/easing.rs `ease_in_bounce`. -/
def ease_in_bounce (t : ℝ) : ℝ := 1 - ease_out_bounce (1 - t)

/-- src/easing.rs `ease_in_out_bounce`. -/
def ease_in_out_bounce (t : ℝ) : ℝ :=
  if t < 1 / 2 then (1 - ease_out_bounce (1 - 2 * t)) / 2
  else (1 + ease_out_bounce (2 * t - 1)) / 2

/-- src/easing.rs `bezier_component`. -/
def bezier_component (s p1 p2 : ℝ) : ℝ :=
  let u := 1 - s
  3 * u * u * s * p1 + 3 * u * s * s * p2 + s * s * s

/-- src/easing.rs `bezier_derivative`. -/
def bezier_derivative (s p1 p2 : ℝ) : ℝ :=
  let u := 1 - s
  3 * u * u * p1 + 6 * u * s * (p2 - p1) + 3 * s * s * (1 - p2)

/-- The Newton-Raphson loop of src/easing.rs `cubic_bezier`, with fuel.
An early `break` on a small derivative returns the current `s`. -/
def newtonLoop (t x1 x2 : ℝ) : ℕ → ℝ → ℝ
  | 0, s => s
  | n + 1, s =>
    let bx := bezier_component s x1 x2
    let dbx := bezier_derivative s x1 x2
    if |dbx| < 1e-7 then s
    else newtonLoop t x1 x2 n (fclamp (s - (bx - t) / dbx) 0 1)

/-- The bisection fallback loop of src/easing.rs `cubic_bezier`: the first
argument after the fuel is the running `s` (last midpoint), then `lo`, `hi`. -/
def bisectLoop (t x1 x2 : ℝ) : ℕ → ℝ → ℝ → ℝ → ℝ
  | 0, s, _, _ => s
  | n + 1, _, lo, hi =>
    let s := (lo + hi) / 2
    let bx := bezier_component s x1 x2
    if bx < t then bisectLoop t x1 x2 n s s hi
    else bisectLoop t x1 x2 n s lo s

/-- src/easing.rs `cubic_bezier`: clamp at the endpoints, 8 Newton
iterations from `s = t`, then 20 bisection iterations if the residual
still exceeds `1e-5`. -/
def cubic_bezier (t x1 y1 x2 y2 : ℝ) : ℝ :=
  if t ≤ 0 then 0
  else if 1 ≤ t then 1
  else
    let s0 := newtonLoop t x1 x2 8 t
    let residual := |bezier_component s0 x1 x2 - t|
    let s := if residual > 1e-5 then bisectLoop t x1 x2 20 s0 0 1 else s0
    bezier_component s y1 y2

/-- The 31-variant easing enum (src/easing.rs `Easing`). -/
inductive Easing where
  | Linear
  | EaseInQuad
  | EaseOutQuad
  | EaseInOutQuad
  | EaseInCubic
  | EaseOutCubic
  | EaseInOutCubic
  | EaseInQuart
  | EaseOutQuart
  | EaseInOutQuart
  | EaseInQuint
  | EaseOutQuint
  | EaseInOutQuint
  | EaseInSine
  | EaseOutSine
  | EaseInOutSine
  | EaseInExpo
  | EaseOutExpo
  | EaseInOutExpo
  | EaseInCirc
  | EaseOutCirc
  | EaseInOutCirc
  | EaseInBack
  | EaseOutBack
  | EaseInOutBack
  | EaseInElastic
  | EaseOutElastic
  | EaseInOutElastic
  | EaseInBounce
  | EaseOutBounce
  | EaseInOutBounce
  | CubicBezier (x1 y1 x2 y2 : ℝ)

/-- src/easing.rs `Easing::evaluate`. -/
def Easing.evaluate : Easing → ℝ → ℝ
  | .Linear, t => t
  | .EaseInQuad, t => ease_in_quad t
  | .EaseOutQuad, t => ease_out_quad t
  | .EaseInOutQuad, t => ease_in_out_quad t
  | .EaseInCubic, t => ease_in_cubic t
  | .EaseOutCubic, t => ease_out_cubic t
  | .EaseInOutCubic, t => ease_in_out_cubic t
  | .EaseInQuart, t => ease_in_quart t
  | .EaseOutQuart, t => ease_out_quart t
  | .EaseInOutQuart, t => ease_in_out_quart t
  | .EaseInQuint, t => ease_in_quint t
  | .EaseOutQuint, t => ease_out_quint t
  | .EaseInOutQuint, t => ease_in_out_quint t
  | .EaseInSine, t => ease_in_sine t
  | .EaseOutSine, t => ease_out_sine t
  | .EaseInOutSine, t => ease_in_out_sine t
  | .EaseInExpo, t => ease_in_expo t
  | .EaseOutExpo, t => ease_out_expo t
  | .EaseInOutExpo, t => ease_in_out_expo t
  | .EaseInCirc, t => ease_in_circ t
  | .EaseOutCirc, t => ease_out_circ t
  | .EaseInOutCirc, t => ease_in_out_circ t
  | .EaseInBack, t => ease_in_back t
  | .EaseOutBack, t => ease_out_back t
  | .EaseInOutBack, t => ease_in_out_back t
  | .EaseInElastic, t => ease_in_elastic t
  | .EaseOutElastic, t => ease_out_elastic t
  | .EaseInOutElastic, t => ease_in_out_elastic t
  | .EaseInBounce, t => ease_in_bounce t
  | .EaseOutBounce, t => ease_out_bounce t
  | .EaseInOutBounce, t => ease_in_out_bounce t
  | .CubicBezier x1 y1 x2 y2, t => cubic_bezier t x1 y1 x2 y2

/-! The Tween state machine, from src/tween.rs, instantiated with the
scalar value type (`T = F = ℝ`). The Rust `from`/`to` fields are spelled
`from_`/`to_` because `from` is a Lean keyword. -/

/-- src/tween.rs `Tween`. -/
structure Tween where
  from_ : ℝ
  to_ : ℝ
  duration : ℕ
  elapsed : ℕ
  easing : Easing
  state : TweenState
  loop_mode : LoopMode
  delay : ℕ
  delay_remaining : ℕ
  loops_completed : ℕ
  direction : PlayDirection

/-- src/tween.rs `Tween::new`. -/
def Tween.new (from_ to_ : ℝ) (duration : ℕ) : Tween where
  from_ := from_
  to_ := to_
  duration := duration
  elapsed := 0
  easing := .Linear
  state := .Playing
  loop_mode := .Once
  delay := 0
  delay_remaining := 0
  loops_completed := 0
  direction := .Forward

/-- src/tween.rs `Tween::with_easing`. -/
def Tween.with_easing (t : Tween) (easing : Easing) : Tween :=
  { t with easing := easing }

/-- src/tween.rs `Tween::with_loop`. -/
def Tween.with_loop (t : Tween) (mode : LoopMode) : Tween :=
  { t with loop_mode := mode }

/-- src/tween.rs `Tween::with_delay`. -/
def Tween.with_delay (t : Tween) (ticks : ℕ) : Tween :=
  { t with delay := ticks, delay_remaining := ticks }

/-- src/tween.rs `Tween::progress`. The source computes the raw ratio in
`f32` (`elapsed as f32 / duration as f32`, clamped) and converts back. -/
def Tween.progress (t : Tween) : ℝ :=
  if 0 < t.delay_remaining then 0
  else if t.duration = 0 then 1
  else
    let raw := fclamp ((t.elapsed : ℝ) / (t.duration : ℝ)) 0 1
    match t.direction with
    | .Forward => raw
    | .Backward => 1 - raw

/-- src/tween.rs `Tween::value`. -/
def Tween.value (t : Tween) : ℝ :=
  if 0 < t.delay_remaining then t.from_
  else if t.duration = 0 then
    match t.direction with
    | .Forward => t.to_
    | .Backward => t.from_
  else flerp t.from_ t.to_ (t.easing.evaluate t.progress)

/-- src/tween.rs `Tween::on_iteration_complete`. -/
def Tween.on_iteration_complete (t : Tween) : Tween :=
  match t.loop_mode with
  | .Once => { t with state := .Finished }
  | .Count count =>
    if count = 0 ∨ count ≤ t.loops_completed + 1 then
      { t with loops_completed := t.loops_completed + 1, state := .Finished }
    else
      { t with loops_completed := t.loops_completed + 1, elapsed := 0,
               direction := .Forward }
  | .Infinite => { t with loops_completed := t.loops_completed + 1, elapsed := 0 }
  | .PingPong =>
    { t with loops_completed := t.loops_completed + 1, elapsed := 0,
             direction := match t.direction with
               | .Forward => .Backward
               | .Backward => .Forward }
  | .PingPongCount count =>
    let max_legs := satMul count 2
    if max_legs = 0 ∨ max_legs ≤ t.loops_completed + 1 then
      { t with loops_completed := t.loops_completed + 1, state := .Finished }
    else
      { t with loops_completed := t.loops_completed + 1, elapsed := 0,
               direction := match t.direction with
                 | .Forward => .Backward
                 | .Backward => .Forward }

/-- src/tween.rs `Tween::tick`, as state-passing: returns the updated
tween and the value the call returns. -/
def Tween.tick (t : Tween) : Tween × ℝ :=
  if t.state ≠ .Playing then (t, t.value)
  else if 0 < t.delay_remaining then
    ({ t with delay_remaining := t.delay_remaining - 1 }, t.from_)
  else if t.duration = 0 then
    ({ t with state := .Finished },
      match t.direction with
      | .Forward => t.to_
      | .Backward => t.from_)
  else
    let t1 := if t.elapsed < t.duration then { t with elapsed := t.elapsed + 1 } else t
    let v := t1.value
    let t2 := if t1.duration ≤ t1.elapsed then t1.on_iteration_complete else t1
    (t2, v)

/-- src/tween.rs `Tween::is_finished`. -/
def Tween.is_finished (t : Tween) : Bool := t.state = TweenState.Finished

/-- src/tween.rs `Tween::total_duration`. -/
def Tween.total_duration (t : Tween) : ℕ := t.delay + t.duration

/-- src/tween.rs `Tween::reset`. -/
def Tween.reset (t : Tween) : Tween :=
  { t with elapsed := 0, delay_remaining := t.delay, loops_completed := 0,
           direction := .Forward, state := .Playing }

/-- State after `k` consecutive `tick()` calls. -/
def Tween.runTicks (t : Tween) : ℕ → Tween
  | 0 => t
  | k + 1 => ((t.runTicks k).tick).1

/-- Value returned by the `k`-th `tick()` call (`k ≥ 1`). -/
def Tween.tickValue (t : Tween) (k : ℕ) : ℝ := ((t.runTicks (k - 1)).tick).2

/-! Keyframes, from src/keyframes.rs. -/

/-- src/keyframes.rs `Keyframe`. -/
structure Keyframe where
  value : ℝ
  tick : ℕ
  easing : Easing

instance : Inhabited Keyframe := ⟨⟨0, 0, .Linear⟩⟩

/-- src/keyframes.rs `Keyframes`. -/
structure Keyframes where
  frames : List Keyframe
  elapsed : ℕ
  state : TweenState
  loop_mode : LoopMode
  loops_completed : ℕ

/-- The inner loop of src/keyframes.rs `validate_frames`, walking
`frames.windows(2).enumerate()` from window index `i`. -/
def validateFrom : ℕ → List Keyframe → Except TweenError Unit
  | _, [] => .ok ()
  | _, [_] => .ok ()
  | i, a :: b :: rest =>
    if b.tick < a.tick then
      .error (.KeyframeOutOfOrder (i + 1) b.tick a.tick)
    else validateFrom (i + 1) (b :: rest)

/-- src/keyframes.rs `validate_frames`. -/
def validate_frames (frames : List Keyframe) : Except TweenError Unit :=
  match frames with
  | [] => .error .EmptyKeyframes
  | _ => validateFrom 0 frames

/-- src/keyframes.rs `Keyframes::try_new`. -/
def Keyframes.try_new (frames : List Keyframe) : Except TweenError Keyframes :=
  match validate_frames frames with
  | .error e => .error e
  | .ok _ =>
    .ok { frames := frames, elapsed := 0, state := .Playing,
          loop_mode := .Once, loops_completed := 0 }

/-- src/keyframes.rs `Keyframes::with_loop`. -/
def Keyframes.with_loop (k : Keyframes) (mode : LoopMode) : Keyframes :=
  { k with loop_mode := mode }

/-- src/keyframes.rs `Keyframes::total_duration` (`last.tick` or 0). -/
def Keyframes.total_duration (k : Keyframes) : ℕ :=
  ((k.frames.getLast?).map Keyframe.tick).getD 0

/-- src/keyframes.rs `Keyframes::value`. Indexing is modelled with `getD`
(the source asserts non-emptiness and its indices are in bounds for
validated frame lists); `partition_point` on a tick-sorted list equals the
length of the prefix of frames with `tick ≤ elapsed`. -/
def Keyframes.value (k : Keyframes) : ℝ :=
  if k.frames.length = 1 then (k.frames.getD 0 default).value
  else if k.elapsed ≤ (k.frames.getD 0 default).tick then
    (k.frames.getD 0 default).value
  else if (k.frames.getD (k.frames.length - 1) default).tick ≤ k.elapsed then
    (k.frames.getD (k.frames.length - 1) default).value
  else
    let idx := (k.frames.takeWhile (fun f => f.tick ≤ k.elapsed)).length
    let i := idx - 1
    let a := k.frames.getD i default
    let b := k.frames.getD (i + 1) default
    let segment_duration := b.tick - a.tick
    if segment_duration = 0 then b.value
    else
      let local_elapsed := k.elapsed - a.tick
      let raw_t := (local_elapsed : ℝ) / (segment_duration : ℝ)
      flerp a.value b.value (a.easing.evaluate raw_t)

/-- src/keyframes.rs `Keyframes::on_iteration_complete`. -/
def Keyframes.on_iteration_complete (k : Keyframes) : Keyframes :=
  match k.loop_mode with
  | .Once => { k with state := .Finished }
  | .Count count =>
    if count = 0 ∨ count ≤ k.loops_completed + 1 then
      { k with loops_completed := k.loops_completed + 1, state := .Finished }
    else { k with loops_completed := k.loops_completed + 1, elapsed := 0 }
  | .Infinite => { k with loops_completed := k.loops_completed + 1, elapsed := 0 }
  | .PingPong => { k with loops_completed := k.loops_completed + 1, elapsed := 0 }
  | .PingPongCount count =>
    let max_legs := satMul count 2
    if max_legs = 0 ∨ max_legs ≤ k.loops_completed + 1 then
      { k with loops_completed := k.loops_completed + 1, state := .Finished }
    else { k with loops_completed := k.loops_completed + 1, elapsed := 0 }

/-- src/keyframes.rs `Keyframes::tick` (the frame list is non-empty for
every constructible `Keyframes`; the source's assert is not modelled). -/
def Keyframes.tick (k : Keyframes) : Keyframes × ℝ :=
  if k.state ≠ .Playing then (k, k.value)
  else
    let total := k.total_duration
    let k1 := if 0 < total ∧ k.elapsed < total then
                { k with elapsed := k.elapsed + 1 } else k
    let v := k1.value
    let k2 := if total ≤ k1.elapsed then k1.on_iteration_complete else k1
    (k2, v)

/-- src/keyframes.rs `Keyframes::is_finished`. -/
def Keyframes.is_finished (k : Keyframes) : Bool := k.state = TweenState.Finished

/-- State after `k` consecutive `tick()` calls. -/
def Keyframes.runTicks (k : Keyframes) : ℕ → Keyframes
  | 0 => k
  | n + 1 => ((k.runTicks n).tick).1

/-- Value returned by the `n`-th `tick()` call (`n ≥ 1`). -/
def Keyframes.tickValue (k : Keyframes) (n : ℕ) : ℝ := ((k.runTicks (n - 1)).tick).2

/-! The Sequence combinator, from src/tween.rs. Its `tick`/`value` assert
that at least one tween was pushed; the panic is modelled as `none`. -/

/-- src/tween.rs `Sequence`. -/
structure Sequence where
  tweens : List Tween
  current_index : ℕ
  state : TweenState
  loop_mode : LoopMode
  loops_completed : ℕ

/-- src/tween.rs `Sequence::new`. -/
def Sequence.new : Sequence where
  tweens := []
  current_index := 0
  state := .Idle
  loop_mode := .Once
  loops_completed := 0

/-- src/tween.rs `Sequence::push`. -/
def Sequence.push (s : Sequence) (t : Tween) : Sequence :=
  { s with tweens := s.tweens ++ [t],
           state := if s.state = .Idle then .Playing else s.state }

/-- src/tween.rs `Sequence::value`; `none` models the failed assert on an
empty tween list (and an out-of-bounds `current_index` panic). -/
def Sequence.value (s : Sequence) : Option ℝ :=
  if s.tweens.isEmpty then none
  else (s.tweens.get? s.current_index).map Tween.value

/-- src/tween.rs `Sequence::restart`. -/
def Sequence.restart (s : Sequence) : Sequence :=
  { s with tweens := s.tweens.map Tween.reset, current_index := 0,
           state := .Playing }

/-- src/tween.rs `Sequence::on_sequence_complete`. -/
def Sequence.on_sequence_complete (s : Sequence) : Sequence :=
  match s.loop_mode with
  | .Once => { s with state := .Finished }
  | .Count count =>
    let s1 := { s with loops_completed := s.loops_completed + 1 }
    if count = 0 ∨ count ≤ s1.loops_completed then
      { s1 with state := .Finished }
    else s1.restart
  | .Infinite => ({ s with loops_completed := s.loops_completed + 1 }).restart
  | .PingPong => ({ s with loops_completed := s.loops_completed + 1 }).restart
  | .PingPongCount count =>
    let max_legs := satMul count 2
    let s1 := { s with loops_completed := s.loops_completed + 1 }
    if max_legs = 0 ∨ max_legs ≤ s1.loops_completed then
      { s1 with state := .Finished }
    else s1.restart

/-- src/tween.rs `Sequence::tick`; `none` models the failed assert on an
empty tween list (and an out-of-bounds `current_index` panic). -/
def Sequence.tick (s : Sequence) : Option (Sequence × ℝ) :=
  if s.tweens.isEmpty then none
  else if s.state ≠ .Playing then (s.value).map (fun v => (s, v))
  else
    match s.tweens.get? s.current_index with
    | none => none
    | some tw =>
      let p := tw.tick
      let s1 := { s with tweens := s.tweens.set s.current_index p.1 }
      let s2 :=
        if p.1.is_finished then
          if s1.current_index + 1 < s1.tweens.length then
            { s1 with current_index := s1.current_index + 1 }
          else s1.on_sequence_complete
        else s1
      some (s2, p.2)

/-- The index invariant every reachable `Sequence` maintains: the current
index is in bounds, or the sequence is still the freshly built empty one. -/
def SeqInv (s : Sequence) : Prop :=
  s.current_index < s.tweens.length ∨ (s.tweens = [] ∧ s.current_index = 0)

/-- States of a `Sequence` reachable through the public constructor,
`push`, and non-panicking `tick` calls. -/
inductive SeqReach : Sequence → Prop where
  | new : SeqReach Sequence.new
  | push (s : Sequence) (t : Tween) : SeqReach s → SeqReach (s.push t)
  | tick (s s' : Sequence) (v : ℝ) : SeqReach s → s.tick = some (s', v) → SeqReach s'

/-! The spring integrator, from src/spring.rs. -/

/-- src/spring.rs `SpringConfig`. -/
structure SpringConfig where
  stiffness : ℝ
  damping : ℝ
  mass : ℝ
  rest_threshold : ℝ

/-- src/spring.rs `SpringTween`. -/
structure SpringTween where
  value : ℝ
  velocity : ℝ
  target : ℝ
  config : SpringConfig
  at_rest : Bool

/-- src/spring.rs `SpringTween::new`. -/
def SpringTween.new (initial target : ℝ) (config : SpringConfig) : SpringTween where
  value := initial
  velocity := 0
  target := target
  config := config
  at_rest := false

/-- src/spring.rs `SpringTween::tick` (fixed internal timestep `1/60`). -/
def SpringTween.tick (s : SpringTween) : SpringTween × ℝ :=
  if s.at_rest then (s, s.value)
  else
    let dt : ℝ := 1 / 60
    let displacement := s.value - s.target
    let force := -s.config.stiffness * displacement - s.config.damping * s.velocity
    let acceleration := force / s.config.mass
    let velocity := s.velocity + acceleration * dt
    let value := s.value + velocity * dt
    let displacement_after := value - s.target
    if |velocity| < s.config.rest_threshold ∧
        |displacement_after| < s.config.rest_threshold then
      ({ s with value := s.target, velocity := 0, at_rest := true }, s.target)
    else
      ({ s with value := value, velocity := velocity }, value)

/-- src/spring.rs `SpringTween::set_target`. -/
def SpringTween.set_target (s : SpringTween) (new_target : ℝ) : SpringTween :=
  { s with target := new_target, at_rest := false }

/-- src/spring.rs `SpringTween::is_at_rest`. -/
def SpringTween.is_at_rest (s : SpringTween) : Bool := s.at_rest

/-! The Timeline, from src/timeline.rs. `TweenId(u32)` is modelled as `ℕ`
(the wrapped integer). -/

/-- src/timeline.rs `TimelineEntry`. -/
structure TimelineEntry where
  id : ℕ
  start_tick : ℕ
  duration : ℕ

/-- src/timeline.rs `Timeline`. -/
structure Timeline where
  entries : List TimelineEntry
  next_id : ℕ
  elapsed : ℕ
  state : TweenState
  loop_mode : LoopMode
  loops_completed : ℕ

/-- src/timeline.rs `Timeline::new`. -/
def Timeline.new : Timeline where
  entries := []
  next_id := 0
  elapsed := 0
  state := .Playing
  loop_mode := .Once
  loops_completed := 0

/-- src/timeline.rs `Timeline::add` (returns the fresh id; the counter
advances with `u32::saturating_add`). -/
def Timeline.add (tl : Timeline) (start_tick duration : ℕ) : Timeline × ℕ :=
  let id := tl.next_id
  ({ tl with next_id := satAdd tl.next_id 1,
             entries := tl.entries ++ [⟨id, start_tick, duration⟩] }, id)

/-- src/timeline.rs `Timeline::total_duration`. -/
def Timeline.total_duration (tl : Timeline) : ℕ :=
  (tl.entries.map (fun e => satAdd e.start_tick e.duration)).foldr max 0

/-- src/timeline.rs `Timeline::with_loop`. -/
def Timeline.with_loop (tl : Timeline) (mode : LoopMode) : Timeline :=
  { tl with loop_mode := mode }

/-- src/timeline.rs `Timeline::active_entries`. -/
def Timeline.active_entries (tl : Timeline) (tick : ℕ) : List (ℕ × ℝ) :=
  tl.entries.filterMap (fun e =>
    if e.duration = 0 then
      if tick = e.start_tick then some (e.id, 1) else none
    else
      let end_tick := satAdd e.start_tick e.duration
      if e.start_tick ≤ tick ∧ tick ≤ end_tick then
        let local_elapsed := tick - e.start_tick
        some (e.id, fclamp ((local_elapsed : ℝ) / (e.duration : ℝ)) 0 1)
      else none)

/-- src/timeline.rs `Timeline::on_iteration_complete`. -/
def Timeline.on_iteration_complete (tl : Timeline) : Timeline :=
  match tl.loop_mode with
  | .Once => { tl with state := .Finished }
  | .Count count =>
    if count = 0 ∨ count ≤ tl.loops_completed + 1 then
      { tl with loops_completed := tl.loops_completed + 1, state := .Finished }
    else { tl with loops_completed := tl.loops_completed + 1, elapsed := 0 }
  | .Infinite => { tl with loops_completed := tl.loops_completed + 1, elapsed := 0 }
  | .PingPong => { tl with loops_completed := tl.loops_completed + 1, elapsed := 0 }
  | .PingPongCount count =>
    let max_legs := satMul count 2
    if max_legs = 0 ∨ max_legs ≤ tl.loops_completed + 1 then
      { tl with loops_completed := tl.loops_completed + 1, state := .Finished }
    else { tl with loops_completed := tl.loops_completed + 1, elapsed := 0 }

/-- src/timeline.rs `Timeline::tick`. -/
def Timeline.tick (tl : Timeline) : Timeline × List (ℕ × ℝ) :=
  if tl.state ≠ .Playing then (tl, tl.active_entries tl.elapsed)
  else
    let total := tl.total_duration
    if total = 0 then ({ tl with state := .Finished }, [])
    else
      let t1 := if tl.elapsed < total then { tl with elapsed := tl.elapsed + 1 } else tl
      let active := t1.active_entries t1.elapsed
      let t2 := if total ≤ t1.elapsed then t1.on_iteration_complete else t1
      (t2, active)

/-- src/timeline.rs `Timeline::is_finished`. -/
def Timeline.is_finished (tl : Timeline) : Bool := tl.state = TweenState.Finished

/-- State after `k` consecutive `tick()` calls. -/
def Timeline.runTicks (tl : Timeline) : ℕ → Timeline
  | 0 => tl
  | k + 1 => ((tl.runTicks k).tick).1

/-- Fold a list of `(start_tick, duration)` arguments through `add`. -/
def Timeline.runAdds (tl : Timeline) : List (ℕ × ℕ) → Timeline
  | [] => tl
  | a :: rest => ((tl.add a.1 a.2).1).runAdds rest

/-- The two-point keyframe list of claim C3, and the `Keyframes` value
`try_new` builds from it. -/
def twoPointFrames (a b : ℝ) (d : ℕ) : List Keyframe :=
  [⟨a, 0, .Linear⟩, ⟨b, d, .Linear⟩]

/-- The `Keyframes` state `try_new` produces for `twoPointFrames`. -/
def twoPointKf (a b : ℝ) (d : ℕ) : Keyframes where
  frames := twoPointFrames a b d
  elapsed := 0
  state := .Playing
  loop_mode := .Once
  loops_completed := 0

/-- The duration-4 `0 → 10` ping-pong tween of claim C5. -/
def pingTween : Tween := (Tween.new 0 10 4).with_loop .PingPong

/-- The state of `pingTween` after its first (forward) leg completes. -/
def pingBack : Tween :=
  { pingTween with loops_completed := 1, direction := .Backward }

/-- The state of `pingTween` after its second (backward) leg completes. -/
def pingFwd : Tween := { pingTween with loops_completed := 2 }

/-! ### Helper lemmas: numeric primitives -/

theorem fclamp_of_le {x : ℝ} (h0 : 0 ≤ x) (h1 : x ≤ 1) : fclamp x 0 1 = x := by
  rw [fclamp, max_eq_left h0, min_eq_left h1]

theorem flerp_one (a b : ℝ) : flerp a b 1 = b := by
  rw [flerp]; ring

/-! ### Helper lemmas: single Tween ticks -/

theorem Tween.tick_not_playing (t : Tween) (h : t.state ≠ .Playing) :
    t.tick = (t, t.value) := by
  rw [Tween.tick, if_pos h]

theorem Tween.tick_delay (t : Tween) (hs : t.state = .Playing)
    (hd : 0 < t.delay_remaining) :
    t.tick = ({ t with delay_remaining := t.delay_remaining - 1 }, t.from_) := by
  rw [Tween.tick, if_neg (by simp [hs]), if_pos hd]

theorem Tween.tick_zero_duration (t : Tween) (hs : t.state = .Playing)
    (hd : t.delay_remaining = 0) (h0 : t.duration = 0) :
    t.tick = ({ t with state := .Finished },
      match t.direction with
      | .Forward => t.to_
      | .Backward => t.from_) := by
  rw [Tween.tick, if_neg (by simp [hs]), if_neg (by omega), if_pos h0]

theorem Tween.tick_mid (t : Tween) (hs : t.state = .Playing)
    (hd : t.delay_remaining = 0) (hlt : t.elapsed + 1 < t.duration) :
    t.tick = ({ t with elapsed := t.elapsed + 1 },
      Tween.value { t with elapsed := t.elapsed + 1 }) := by
  rw [Tween.tick, if_neg (by simp [hs]), if_neg (by omega), if_neg (by omega)]
  simp only [if_pos (show t.elapsed < t.duration by omega)]
  simp only [if_neg (show ¬ t.duration ≤ t.elapsed + 1 by omega)]

theorem Tween.tick_boundary (t : Tween) (hs : t.state = .Playing)
    (hd : t.delay_remaining = 0) (heq : t.elapsed + 1 = t.duration) :
    t.tick = (Tween.on_iteration_complete { t with elapsed := t.elapsed + 1 },
      Tween.value { t with elapsed := t.elapsed + 1 }) := by
  rw [Tween.tick, if_neg (by simp [hs]), if_neg (by omega), if_neg (by omega)]
  simp only [if_pos (show t.elapsed < t.duration by omega)]
  simp only [if_pos (show t.duration ≤ t.elapsed + 1 by omega)]

theorem Tween.runTicks_succ (t : Tween) (k : ℕ) :
    t.runTicks (k + 1) = ((t.runTicks k).tick).1 := rfl

theorem Tween.runTicks_add (t : Tween) (a b : ℕ) :
    t.runTicks (a + b) = (t.runTicks a).runTicks b := by
  induction b with
  | zero => rfl
  | succ n ih => rw [← Nat.add_assoc, Tween.runTicks_succ, ih]; rfl

theorem Tween.runTicks_not_playing (t : Tween) (h : t.state ≠ .Playing) (k : ℕ) :
    t.runTicks k = t := by
  induction k with
  | zero => rfl
  | succ n ih => rw [Tween.runTicks_succ, ih, Tween.tick_not_playing t h]

/-! ### Helper lemma: endpoint values of every easing variant -/

theorem evaluate_zero_one (e : Easing) : e.evaluate 0 = 0 ∧ e.evaluate 1 = 1 := by
  cases e <;> constructor <;>
    norm_num [Easing.evaluate, ease_in_quad, ease_out_quad, ease_in_out_quad,
      ease_in_cubic, ease_out_cubic, ease_in_out_cubic, ease_in_quart,
      ease_out_quart, ease_in_out_quart, ease_in_quint, ease_out_quint,
      ease_in_out_quint, ease_in_sine, ease_out_sine, ease_in_out_sine,
      ease_in_expo, ease_out_expo, ease_in_out_expo, ease_in_circ,
      ease_out_circ, ease_in_out_circ, ease_in_back, ease_out_back,
      ease_in_out_back, ease_in_elastic, ease_out_elastic, ease_in_out_elastic,
      ease_in_bounce, ease_out_bounce, ease_in_out_bounce, cubic_bezier,
      Real.cos_pi_div_two, Real.sin_pi_div_two, Real.cos_pi, Real.rpow_zero,
      Real.sqrt_one, Real.sqrt_zero]

/-- C2: every one of the 31 easing-curve variants maps 0 to 0 and 1 to 1
(here exactly, in the idealized real-arithmetic model, hence within the
stated 1e-4 tolerance), and the Linear variant is the identity on [0,1]. -/
theorem C2_easing_endpoints_linear_identity :
    (∀ e : Easing, e.evaluate 0 = 0 ∧ e.evaluate 1 = 1) ∧
    (∀ t : ℝ, 0 ≤ t → t ≤ 1 → Easing.Linear.evaluate t = t) :=
  ⟨evaluate_zero_one, fun _ _ _ => rfl⟩

/-- Witness for C2 at the concrete variant `EaseInOutBounce` and `t = 1/2`. -/
theorem C2_witness :
    Easing.EaseInOutBounce.evaluate 0 = 0 ∧
    Easing.Linear.evaluate (1 / 2) = 1 / 2 :=
  ⟨(C2_easing_endpoints_linear_identity.1 .EaseInOutBounce).1,
   C2_easing_endpoints_linear_identity.2 (1 / 2) (by norm_num) (by norm_num)⟩

/-! ### Helper lemmas: Tween runs -/

theorem Tween.runTicks_lt (t : Tween) (hs : t.state = .Playing)
    (hd : t.delay_remaining = 0) (he : t.elapsed = 0) :
    ∀ j, j < t.duration → t.runTicks j = { t with elapsed := j } := by
  intro j hj
  induction j with
  | zero =>
    rw [Tween.runTicks]
    rw [← he]
  | succ n ih =>
    rw [Tween.runTicks_succ, ih (by omega),
        Tween.tick_mid _ (by simpa using hs) (by simpa using hd) (by simpa using hj)]

theorem Tween.runTicks_boundary (t : Tween) (hs : t.state = .Playing)
    (hd : t.delay_remaining = 0) (he : t.elapsed = 0) (hdur : 0 < t.duration) :
    t.runTicks t.duration =
      Tween.on_iteration_complete { t with elapsed := t.duration } := by
  obtain ⟨m, hm⟩ : ∃ m, t.duration = m + 1 := ⟨t.duration - 1, by omega⟩
  rw [hm, Tween.runTicks_succ, Tween.runTicks_lt t hs hd he m (by omega),
      Tween.tick_boundary _ (by simpa using hs) (by simpa using hd)
        (by simp [hm])]
  simp [hm]

theorem Tween.tickValue_of_le (t : Tween) (hs : t.state = .Playing)
    (hd : t.delay_remaining = 0) (he : t.elapsed = 0) {k : ℕ}
    (h1 : 1 ≤ k) (h2 : k ≤ t.duration) :
    t.tickValue k = Tween.value { t with elapsed := k } := by
  obtain ⟨n, rfl⟩ : ∃ n, k = n + 1 := ⟨k - 1, by omega⟩
  rw [Tween.tickValue]
  simp only [Nat.add_sub_cancel]
  rw [Tween.runTicks_lt t hs hd he n (by omega)]
  rcases eq_or_lt_of_le h2 with heq | hlt
  · rw [Tween.tick_boundary _ (by simpa using hs) (by simpa using hd)
      (by simpa using heq)]
  · rw [Tween.tick_mid _ (by simpa using hs) (by simpa using hd)
      (by simpa using hlt)]

theorem Tween.progress_of_forward (t : Tween) (hd : t.delay_remaining = 0)
    (h0 : 0 < t.duration) (hdir : t.direction = .Forward)
    (hle : t.elapsed ≤ t.duration) :
    t.progress = (t.elapsed : ℝ) / (t.duration : ℝ) := by
  have hpos : (0 : ℝ) < (t.duration : ℝ) := by exact_mod_cast h0
  rw [Tween.progress, if_neg (by omega), if_neg (by omega), hdir]
  exact fclamp_of_le (by positivity) ((div_le_one hpos).2 (by exact_mod_cast hle))

theorem Tween.progress_of_backward (t : Tween) (hd : t.delay_remaining = 0)
    (h0 : 0 < t.duration) (hdir : t.direction = .Backward)
    (hle : t.elapsed ≤ t.duration) :
    t.progress = 1 - (t.elapsed : ℝ) / (t.duration : ℝ) := by
  have hpos : (0 : ℝ) < (t.duration : ℝ) := by exact_mod_cast h0
  rw [Tween.progress, if_neg (by omega), if_neg (by omega), hdir]
  have := fclamp_of_le (x := (t.elapsed : ℝ) / (t.duration : ℝ)) (by positivity)
    ((div_le_one hpos).2 (by exact_mod_cast hle))
  simp only [this]

theorem Tween.value_linear_forward (t : Tween) (hd : t.delay_remaining = 0)
    (h0 : 0 < t.duration) (heas : t.easing = .Linear)
    (hdir : t.direction = .Forward) (hle : t.elapsed ≤ t.duration) :
    t.value = flerp t.from_ t.to_ ((t.elapsed : ℝ) / (t.duration : ℝ)) := by
  rw [Tween.value, if_neg (by omega), if_neg (by omega), heas,
      Tween.progress_of_forward t hd h0 hdir hle]
  rfl

theorem Tween.value_linear_backward (t : Tween) (hd : t.delay_remaining = 0)
    (h0 : 0 < t.duration) (heas : t.easing = .Linear)
    (hdir : t.direction = .Backward) (hle : t.elapsed ≤ t.duration) :
    t.value = flerp t.from_ t.to_ (1 - (t.elapsed : ℝ) / (t.duration : ℝ)) := by
  rw [Tween.value, if_neg (by omega), if_neg (by omega), heas,
      Tween.progress_of_backward t hd h0 hdir hle]
  rfl

theorem Tween.runTicks_once_finished (t : Tween) (hs : t.state = .Playing)
    (hd : t.delay_remaining = 0) (he : t.elapsed = 0) (hdur : 0 < t.duration)
    (hloop : t.loop_mode = .Once) {k : ℕ} (hk : t.duration ≤ k) :
    t.runTicks k = { t with elapsed := t.duration, state := .Finished } := by
  have hoic : Tween.on_iteration_complete { t with elapsed := t.duration }
      = { t with elapsed := t.duration, state := .Finished } := by
    simp [Tween.on_iteration_complete, hloop]
  have hk' : k = t.duration + (k - t.duration) := by omega
  rw [hk', Tween.runTicks_add, Tween.runTicks_boundary t hs hd he hdur, hoic,
      Tween.runTicks_not_playing _ (by simp)]

/-- C1: the 0→100, duration-10, Linear tween returns exactly 50 on the 5th
tick and exactly 100 on the 10th; after 10 ticks it is finished, and every
further tick leaves the state unchanged and returns 100. -/
theorem C1_linear_tween_ticks :
    Tween.tickValue (Tween.new 0 100 10) 5 = 50 ∧
    Tween.tickValue (Tween.new 0 100 10) 10 = 100 ∧
    ((Tween.new 0 100 10).runTicks 10).is_finished = true ∧
    ∀ k : ℕ,
      (Tween.new 0 100 10).runTicks (10 + k) = (Tween.new 0 100 10).runTicks 10 ∧
      Tween.tickValue (Tween.new 0 100 10) (10 + k + 1) = 100 := by
  have hfin : (Tween.new 0 100 10).runTicks 10 =
      { Tween.new 0 100 10 with elapsed := 10, state := .Finished } :=
    Tween.runTicks_once_finished _ rfl rfl rfl (by norm_num [Tween.new]) rfl
      (by norm_num [Tween.new])
  refine ⟨?_, ?_, ?_, ?_⟩
  · rw [Tween.tickValue_of_le _ rfl rfl rfl (by norm_num)
          (by norm_num [Tween.new]),
        Tween.value_linear_forward _ rfl (by norm_num [Tween.new]) rfl rfl
          (by norm_num [Tween.new])]
    norm_num [Tween.new, flerp]
  · rw [Tween.tickValue_of_le _ rfl rfl rfl (by norm_num)
          (by norm_num [Tween.new]),
        Tween.value_linear_forward _ rfl (by norm_num [Tween.new]) rfl rfl
          (by norm_num [Tween.new])]
    norm_num [Tween.new, flerp]
  · rw [hfin]
    rfl
  · intro k
    have hstable : (Tween.new 0 100 10).runTicks (10 + k) =
        (Tween.new 0 100 10).runTicks 10 := by
      rw [Tween.runTicks_add, hfin, Tween.runTicks_not_playing _ (by simp)]
    refine ⟨hstable, ?_⟩
    rw [Tween.tickValue, show 10 + k + 1 - 1 = 10 + k from by omega, hstable, hfin,
        Tween.tick_not_playing _ (by simp),
        Tween.value_linear_forward _ rfl (by norm_num [Tween.new]) rfl rfl
          (by norm_num [Tween.new])]
    norm_num [Tween.new, flerp]

/-! ### Helper lemmas: Keyframes runs -/

theorem Keyframes.kf_total_duration_update (k : Keyframes) (e : ℕ) :
    ({ k with elapsed := e } : Keyframes).total_duration = k.total_duration := rfl

theorem Keyframes.kf_tick_not_playing (k : Keyframes) (h : k.state ≠ .Playing) :
    k.tick = (k, k.value) := by
  rw [Keyframes.tick, if_pos h]

theorem Keyframes.kf_tick_mid (k : Keyframes) (hs : k.state = .Playing)
    (hlt : k.elapsed + 1 < k.total_duration) :
    k.tick = ({ k with elapsed := k.elapsed + 1 },
      Keyframes.value { k with elapsed := k.elapsed + 1 }) := by
  have h1 : 0 < k.total_duration := by omega
  have h2 : k.elapsed < k.total_duration := by omega
  have h3 : ¬ (k.total_duration ≤ k.elapsed + 1) := by omega
  simp [Keyframes.tick, hs, h1, h2, h3]

theorem Keyframes.kf_tick_boundary (k : Keyframes) (hs : k.state = .Playing)
    (h0 : 0 < k.total_duration) (heq : k.elapsed + 1 = k.total_duration) :
    k.tick = (Keyframes.on_iteration_complete { k with elapsed := k.elapsed + 1 },
      Keyframes.value { k with elapsed := k.elapsed + 1 }) := by
  have h2 : k.elapsed < k.total_duration := by omega
  have h3 : k.total_duration ≤ k.elapsed + 1 := by omega
  simp [Keyframes.tick, hs, h0, h2, h3]

theorem Keyframes.kf_runTicks_succ (k : Keyframes) (n : ℕ) :
    k.runTicks (n + 1) = ((k.runTicks n).tick).1 := rfl

theorem Keyframes.kf_runTicks_add (k : Keyframes) (a b : ℕ) :
    k.runTicks (a + b) = (k.runTicks a).runTicks b := by
  induction b with
  | zero => rfl
  | succ n ih => rw [← Nat.add_assoc, Keyframes.kf_runTicks_succ, ih]; rfl

theorem Keyframes.kf_runTicks_not_playing (k : Keyframes) (h : k.state ≠ .Playing)
    (n : ℕ) : k.runTicks n = k := by
  induction n with
  | zero => rfl
  | succ m ih => rw [Keyframes.kf_runTicks_succ, ih, Keyframes.kf_tick_not_playing k h]

theorem Keyframes.kf_runTicks_lt (k : Keyframes) (hs : k.state = .Playing)
    (he : k.elapsed = 0) :
    ∀ j, j < k.total_duration → k.runTicks j = { k with elapsed := j } := by
  intro j hj
  induction j with
  | zero =>
    rw [Keyframes.runTicks]
    rw [← he]
  | succ n ih =>
    rw [Keyframes.kf_runTicks_succ, ih (by omega),
        Keyframes.kf_tick_mid _ (by simpa using hs)
          (by simpa [Keyframes.kf_total_duration_update] using hj)]

theorem Keyframes.kf_runTicks_boundary (k : Keyframes) (hs : k.state = .Playing)
    (he : k.elapsed = 0) (h0 : 0 < k.total_duration) :
    k.runTicks k.total_duration =
      Keyframes.on_iteration_complete { k with elapsed := k.total_duration } := by
  obtain ⟨m, hm⟩ : ∃ m, k.total_duration = m + 1 := ⟨k.total_duration - 1, by omega⟩
  rw [hm, Keyframes.kf_runTicks_succ, Keyframes.kf_runTicks_lt k hs he m (by omega),
      Keyframes.kf_tick_boundary _ (by simpa using hs)
        (by simpa [Keyframes.kf_total_duration_update] using h0)
        (by simpa [Keyframes.kf_total_duration_update] using hm.symm)]

theorem Keyframes.kf_tickValue_of_le (k : Keyframes) (hs : k.state = .Playing)
    (he : k.elapsed = 0) {n : ℕ} (h1 : 1 ≤ n) (h2 : n ≤ k.total_duration) :
    k.tickValue n = Keyframes.value { k with elapsed := n } := by
  obtain ⟨m, rfl⟩ : ∃ m, n = m + 1 := ⟨n - 1, by omega⟩
  rw [Keyframes.tickValue]
  simp only [Nat.add_sub_cancel]
  rw [Keyframes.kf_runTicks_lt k hs he m (by omega)]
  rcases eq_or_lt_of_le h2 with heq | hlt
  · rw [Keyframes.kf_tick_boundary _ (by simpa using hs)
      (by simpa [Keyframes.kf_total_duration_update] using by omega : 0 < _)
      (by simpa [Keyframes.kf_total_duration_update] using heq)]
  · rw [Keyframes.kf_tick_mid _ (by simpa using hs)
      (by simpa [Keyframes.kf_total_duration_update] using hlt)]

theorem Keyframes.kf_runTicks_once_finished (k : Keyframes) (hs : k.state = .Playing)
    (he : k.elapsed = 0) (h0 : 0 < k.total_duration) (hloop : k.loop_mode = .Once)
    {n : ℕ} (hn : k.total_duration ≤ n) :
    k.runTicks n = { k with elapsed := k.total_duration, state := .Finished } := by
  have hoic : Keyframes.on_iteration_complete { k with elapsed := k.total_duration }
      = { k with elapsed := k.total_duration, state := .Finished } := by
    simp [Keyframes.on_iteration_complete, hloop]
  have hn' : n = k.total_duration + (n - k.total_duration) := by omega
  rw [hn', Keyframes.kf_runTicks_add, Keyframes.kf_runTicks_boundary k hs he h0, hoic,
      Keyframes.kf_runTicks_not_playing _ (by simp)]

/-! ### Helper lemmas: the two-point keyframe list of C3 -/

theorem twoPointKf_total (a b : ℝ) (d : ℕ) :
    (twoPointKf a b d).total_duration = d := by
  simp [twoPointKf, twoPointFrames, Keyframes.total_duration, List.getLast?]

theorem flerp_nat_div_self (a b : ℝ) (d : ℕ) (hd : 0 < d) :
    flerp a b ((d : ℝ) / (d : ℝ)) = b := by
  rw [div_self (by exact_mod_cast hd.ne' : (d : ℝ) ≠ 0), flerp_one]

theorem twoPointKf_value_mid (a b : ℝ) (d e : ℕ) (h1 : 1 ≤ e) (h2 : e < d) :
    Keyframes.value { twoPointKf a b d with elapsed := e } =
      flerp a b ((e : ℝ) / (d : ℝ)) := by
  have hz : ¬ e ≤ 0 := by omega
  have hde : ¬ d ≤ e := by omega
  have hd0 : ¬ d = 0 := by omega
  have htw : decide (d ≤ e) = false := by simp [hde]
  simp [Keyframes.value, twoPointKf, twoPointFrames, Easing.evaluate,
    List.takeWhile, hz, hde, hd0, htw]

theorem twoPointKf_value_ge (a b : ℝ) (d e : ℕ) (h0 : 0 < d) (h : d ≤ e) :
    Keyframes.value { twoPointKf a b d with elapsed := e } = b := by
  have hz : ¬ e ≤ 0 := by omega
  simp [Keyframes.value, twoPointKf, twoPointFrames, hz, h]

/-- C3: the two-frame keyframe list `(a at tick 0, Linear), (b at tick d,
Linear)` validates successfully, and the resulting `Keyframes` returns the
same value as `Tween::new(a, b, d)` on every tick call and agrees with it
on `is_finished` after any number of ticks (for every `d > 0`). -/
theorem C3_two_point_keyframes_refines_tween (a b : ℝ) (d : ℕ) (hd : 0 < d) :
    Keyframes.try_new (twoPointFrames a b d) = .ok (twoPointKf a b d) ∧
    (∀ n, 1 ≤ n →
      Tween.tickValue (Tween.new a b d) n = (twoPointKf a b d).tickValue n) ∧
    (∀ n, ((Tween.new a b d).runTicks n).is_finished =
      ((twoPointKf a b d).runTicks n).is_finished) := by
  have hkd : (twoPointKf a b d).total_duration = d := twoPointKf_total a b d
  refine ⟨?_, ?_, ?_⟩
  · simp [Keyframes.try_new, validate_frames, validateFrom, twoPointFrames,
      twoPointKf]
  · intro n h1
    rcases le_or_lt n d with h2 | h2
    · rw [Tween.tickValue_of_le _ rfl rfl rfl h1 h2,
          Tween.value_linear_forward _ rfl (by simpa [Tween.new] using hd) rfl rfl
            (by simpa [Tween.new] using h2),
          Keyframes.kf_tickValue_of_le _ rfl rfl h1 (by omega)]
      rcases eq_or_lt_of_le h2 with heq | hlt
      · rw [heq, twoPointKf_value_ge a b d d hd le_rfl]
        simpa [Tween.new] using flerp_nat_div_self a b d hd
      · rw [twoPointKf_value_mid a b d n h1 hlt]
        simp [Tween.new]
    · have htw : (Tween.new a b d).runTicks (n - 1) =
          { Tween.new a b d with elapsed := d, state := .Finished } :=
        Tween.runTicks_once_finished _ rfl rfl rfl
          (by simpa [Tween.new] using hd) rfl (by simp [Tween.new]; omega)
      have hkf : (twoPointKf a b d).runTicks (n - 1) =
          { twoPointKf a b d with elapsed := d, state := .Finished } := by
        have := Keyframes.kf_runTicks_once_finished (twoPointKf a b d) rfl rfl
          (by rw [hkd]; exact hd) rfl (n := n - 1) (by rw [hkd]; omega)
        rwa [hkd] at this
      rw [Tween.tickValue, Keyframes.tickValue, htw, hkf,
          Tween.tick_not_playing _ (by simp),
          Keyframes.kf_tick_not_playing _ (by simp)]
      have hv : Keyframes.value
          { twoPointKf a b d with elapsed := d, state := .Finished } = b :=
        twoPointKf_value_ge a b d d hd le_rfl
      rw [Tween.value_linear_forward _ rfl (by simpa [Tween.new] using hd) rfl rfl
            (by simp [Tween.new])]
      simp only [hv]
      simpa [Tween.new] using flerp_nat_div_self a b d hd
  · intro n
    rcases lt_or_le n d with h2 | h2
    · rw [Tween.runTicks_lt _ rfl rfl rfl n (by simpa [Tween.new] using h2),
          Keyframes.kf_runTicks_lt _ rfl rfl n (by rw [hkd]; exact h2)]
      rfl
    · have htw : (Tween.new a b d).runTicks n =
          { Tween.new a b d with elapsed := d, state := .Finished } :=
        Tween.runTicks_once_finished _ rfl rfl rfl
          (by simpa [Tween.new] using hd) rfl (by simpa [Tween.new] using h2)
      have hkf : (twoPointKf a b d).runTicks n =
          { twoPointKf a b d with elapsed := d, state := .Finished } := by
        have := Keyframes.kf_runTicks_once_finished (twoPointKf a b d) rfl rfl
          (by rw [hkd]; exact hd) rfl (n := n) (by rw [hkd]; omega)
        rwa [hkd] at this
      rw [htw, hkf]
      rfl

/-- Witness for C3 at `a = 0`, `b = 1`, `d = 2`, `n = 1`. -/
theorem C3_witness :
    Keyframes.try_new (twoPointFrames 0 1 2) = .ok (twoPointKf 0 1 2) ∧
    Tween.tickValue (Tween.new 0 1 2) 1 = (twoPointKf 0 1 2).tickValue 1 ∧
    ((Tween.new 0 1 2).runTicks 3).is_finished =
      ((twoPointKf 0 1 2).runTicks 3).is_finished :=
  ⟨(C3_two_point_keyframes_refines_tween 0 1 2 (by norm_num)).1,
   (C3_two_point_keyframes_refines_tween 0 1 2 (by norm_num)).2.1 1 le_rfl,
   (C3_two_point_keyframes_refines_tween 0 1 2 (by norm_num)).2.2 3⟩

/-! ### Helper lemmas: Timeline runs -/

theorem Timeline.tick_fst_not_playing (tl : Timeline) (h : tl.state ≠ .Playing) :
    (tl.tick).1 = tl := by
  rw [Timeline.tick, if_pos h]

theorem Timeline.tick_fst_mid (tl : Timeline) (hs : tl.state = .Playing)
    (hlt : tl.elapsed + 1 < tl.total_duration) :
    (tl.tick).1 = { tl with elapsed := tl.elapsed + 1 } := by
  have h0 : ¬ tl.total_duration = 0 := by omega
  have h2 : tl.elapsed < tl.total_duration := by omega
  have h3 : ¬ (tl.total_duration ≤ tl.elapsed + 1) := by omega
  simp [Timeline.tick, hs, h0, h2, h3]

theorem Timeline.tick_fst_boundary (tl : Timeline) (hs : tl.state = .Playing)
    (h0 : 0 < tl.total_duration) (heq : tl.elapsed + 1 = tl.total_duration) :
    (tl.tick).1 =
      Timeline.on_iteration_complete { tl with elapsed := tl.elapsed + 1 } := by
  have h0' : ¬ tl.total_duration = 0 := by omega
  have h2 : tl.elapsed < tl.total_duration := by omega
  have h3 : tl.total_duration ≤ tl.elapsed + 1 := by omega
  simp [Timeline.tick, hs, h0', h2, h3]

theorem Timeline.tl_total_duration_update (tl : Timeline) (e : ℕ) :
    ({ tl with elapsed := e } : Timeline).total_duration = tl.total_duration := rfl

theorem Timeline.tl_runTicks_succ (tl : Timeline) (n : ℕ) :
    tl.runTicks (n + 1) = ((tl.runTicks n).tick).1 := rfl

theorem Timeline.tl_runTicks_lt (tl : Timeline) (hs : tl.state = .Playing)
    (he : tl.elapsed = 0) :
    ∀ j, j < tl.total_duration → tl.runTicks j = { tl with elapsed := j } := by
  intro j hj
  induction j with
  | zero =>
    rw [Timeline.runTicks]
    rw [← he]
  | succ n ih =>
    rw [Timeline.tl_runTicks_succ, ih (by omega),
        Timeline.tick_fst_mid _ (by simpa using hs)
          (by simpa [Timeline.tl_total_duration_update] using hj)]

theorem Timeline.tl_runTicks_boundary (tl : Timeline) (hs : tl.state = .Playing)
    (he : tl.elapsed = 0) (h0 : 0 < tl.total_duration) :
    tl.runTicks tl.total_duration =
      Timeline.on_iteration_complete { tl with elapsed := tl.total_duration } := by
  obtain ⟨m, hm⟩ : ∃ m, tl.total_duration = m + 1 := ⟨tl.total_duration - 1, by omega⟩
  rw [hm, Timeline.tl_runTicks_succ, Timeline.tl_runTicks_lt tl hs he m (by omega),
      Timeline.tick_fst_boundary _ (by simpa using hs)
        (by simpa [Timeline.tl_total_duration_update] using h0)
        (by simpa [Timeline.tl_total_duration_update] using hm.symm)]

/-! ### Helper lemmas: Tween delay phase -/

theorem Tween.runTicks_delay (t : Tween) (hs : t.state = .Playing) :
    ∀ k, k ≤ t.delay_remaining →
      t.runTicks k = { t with delay_remaining := t.delay_remaining - k } := by
  intro k hk
  induction k with
  | zero =>
    rw [Tween.runTicks]
    simp only [Nat.sub_zero]
  | succ n ih =>
    rw [Tween.runTicks_succ, ih (by omega),
        Tween.tick_delay _ (by simpa using hs) (by simp; omega)]
    simp [Nat.sub_sub]

/-! ### Helper lemmas: the Count(0) / PingPongCount(0) completion step -/

theorem Tween.oic_count_zero (t : Tween)
    (hl : t.loop_mode = .Count 0 ∨ t.loop_mode = .PingPongCount 0)
    (hlc : t.loops_completed = 0) :
    t.on_iteration_complete = { t with loops_completed := 1, state := .Finished } := by
  rcases hl with h | h <;> simp [Tween.on_iteration_complete, h, hlc, satMul]

theorem Keyframes.kf_oic_count_zero (k : Keyframes)
    (hl : k.loop_mode = .Count 0 ∨ k.loop_mode = .PingPongCount 0)
    (hlc : k.loops_completed = 0) :
    k.on_iteration_complete = { k with loops_completed := 1, state := .Finished } := by
  rcases hl with h | h <;> simp [Keyframes.on_iteration_complete, h, hlc, satMul]

theorem Timeline.tl_oic_count_zero (tl : Timeline)
    (hl : tl.loop_mode = .Count 0 ∨ tl.loop_mode = .PingPongCount 0)
    (hlc : tl.loops_completed = 0) :
    tl.on_iteration_complete =
      { tl with loops_completed := 1, state := .Finished } := by
  rcases hl with h | h <;> simp [Timeline.on_iteration_complete, h, hlc, satMul]

/-- C4 counterexample: a Tween with `duration = 0` but `delay = 1` has
positive `total_duration`, loop mode `Count(0)`, and after 2 ticks it is
Finished — but with `loops_completed = 0`, not 1 (no iteration boundary is
ever reached, contradicting the claim as stated). -/
theorem C4_counterexample :
    (((Tween.new 0 1 0).with_delay 1).with_loop (.Count 0)).total_duration = 1 ∧
    ((((Tween.new 0 1 0).with_delay 1).with_loop (.Count 0)).runTicks 2).is_finished
      = true ∧
    ((((Tween.new 0 1 0).with_delay 1).with_loop (.Count 0)).runTicks 2).loops_completed
      = 0 := by
  refine ⟨rfl, ?_, ?_⟩ <;>
    simp [Tween.new, Tween.with_delay, Tween.with_loop, Tween.runTicks,
      Tween.tick, Tween.is_finished]

/-- C4 (amended: for Tween the iteration length is its `duration`, which
must be positive — a zero-duration Tween with a delay has positive
`total_duration` but finishes without an iteration boundary): every Tween
with positive duration, and every Keyframes or Timeline with positive
total duration, with loop mode `Count 0` or `PingPongCount 0`, is not
finished before the first iteration boundary and at that boundary becomes
Finished with `loops_completed = 1`. -/
theorem C4_count_zero_finishes_after_one_iteration :
    (∀ t : Tween, t.state = .Playing → t.elapsed = 0 → t.loops_completed = 0 →
      0 < t.duration →
      (t.loop_mode = .Count 0 ∨ t.loop_mode = .PingPongCount 0) →
      (∀ k, k < t.delay_remaining + t.duration → (t.runTicks k).is_finished = false) ∧
      (t.runTicks (t.delay_remaining + t.duration)).state = .Finished ∧
      (t.runTicks (t.delay_remaining + t.duration)).loops_completed = 1) ∧
    (∀ k : Keyframes, k.state = .Playing → k.elapsed = 0 → k.loops_completed = 0 →
      0 < k.total_duration →
      (k.loop_mode = .Count 0 ∨ k.loop_mode = .PingPongCount 0) →
      (∀ n, n < k.total_duration → (k.runTicks n).is_finished = false) ∧
      (k.runTicks k.total_duration).state = .Finished ∧
      (k.runTicks k.total_duration).loops_completed = 1) ∧
    (∀ tl : Timeline, tl.state = .Playing → tl.elapsed = 0 → tl.loops_completed = 0 →
      0 < tl.total_duration →
      (tl.loop_mode = .Count 0 ∨ tl.loop_mode = .PingPongCount 0) →
      (∀ n, n < tl.total_duration → (tl.runTicks n).is_finished = false) ∧
      (tl.runTicks tl.total_duration).state = .Finished ∧
      (tl.runTicks tl.total_duration).loops_completed = 1) := by
  refine ⟨?_, ?_, ?_⟩
  · intro t hs he hlc hdur hl
    have hafter : t.runTicks t.delay_remaining = { t with delay_remaining := 0 } := by
      simpa using Tween.runTicks_delay t hs t.delay_remaining le_rfl
    have hboundary : t.runTicks (t.delay_remaining + t.duration) =
        { t with delay_remaining := 0, elapsed := t.duration,
                 loops_completed := 1, state := .Finished } := by
      rw [Tween.runTicks_add, hafter]
      have hb := Tween.runTicks_boundary { t with delay_remaining := 0 }
        (by simpa using hs) rfl (by simpa using he) (by simpa using hdur)
      simp only [hb]
      rw [Tween.oic_count_zero _ (by simpa using hl) (by simpa using hlc)]
    refine ⟨?_, by rw [hboundary], by rw [hboundary]⟩
    intro k hk
    rcases le_or_lt k t.delay_remaining with hkd | hkd
    · rw [Tween.runTicks_delay t hs k hkd, Tween.is_finished]
      simp [hs]
    · have hk' : k = t.delay_remaining + (k - t.delay_remaining) := by omega
      rw [hk', Tween.runTicks_add, hafter,
          Tween.runTicks_lt _ (by simpa using hs) rfl (by simpa using he)
            (k - t.delay_remaining) (by simp; omega),
          Tween.is_finished]
      simp [hs]
  · intro k hs he hlc hdur hl
    have hb := Keyframes.kf_runTicks_boundary k hs he hdur
    rw [Keyframes.kf_oic_count_zero _ (by simpa using hl) (by simpa using hlc)] at hb
    refine ⟨?_, by rw [hb], by rw [hb]⟩
    intro n hn
    rw [Keyframes.kf_runTicks_lt k hs he n hn, Keyframes.is_finished]
    simp [hs]
  · intro tl hs he hlc hdur hl
    have hb := Timeline.tl_runTicks_boundary tl hs he hdur
    rw [Timeline.tl_oic_count_zero _ (by simpa using hl) (by simpa using hlc)] at hb
    refine ⟨?_, by rw [hb], by rw [hb]⟩
    intro n hn
    rw [Timeline.tl_runTicks_lt tl hs he n hn, Timeline.is_finished]
    simp [hs]

/-- Witness for C4 at a duration-1 `Count 0` Tween, a two-point `Count 0`
keyframe sequence of total duration 1, and a one-entry `Count 0` timeline. -/
theorem C4_witness :
    ((((Tween.new 0 1 1).with_loop (.Count 0)).runTicks 1).state = .Finished ∧
      (((Tween.new 0 1 1).with_loop (.Count 0)).runTicks 1).loops_completed = 1) ∧
    ((((twoPointKf 0 1 1).with_loop (.Count 0)).runTicks 1).state = .Finished ∧
      (((twoPointKf 0 1 1).with_loop (.Count 0)).runTicks 1).loops_completed = 1) ∧
    (((⟨[⟨0, 0, 1⟩], 1, 0, .Playing, .Count 0, 0⟩ : Timeline).runTicks 1).state
        = .Finished ∧
      ((⟨[⟨0, 0, 1⟩], 1, 0, .Playing, .Count 0, 0⟩ : Timeline).runTicks 1).loops_completed
        = 1) := by
  have h1 := (C4_count_zero_finishes_after_one_iteration.1
    ((Tween.new 0 1 1).with_loop (.Count 0)) rfl rfl rfl (by decide) (Or.inl rfl))
  have h2 := (C4_count_zero_finishes_after_one_iteration.2.1
    ((twoPointKf 0 1 1).with_loop (.Count 0)) rfl rfl rfl (by decide) (Or.inl rfl))
  have h3 := (C4_count_zero_finishes_after_one_iteration.2.2
    (⟨[⟨0, 0, 1⟩], 1, 0, .Playing, .Count 0, 0⟩ : Timeline) rfl rfl rfl
    (by decide) (Or.inl rfl))
  exact ⟨⟨h1.2.1, h1.2.2⟩, ⟨h2.2.1, h2.2.2⟩, ⟨h3.2.1, h3.2.2⟩⟩

/-! ### Helper lemmas: the ping-pong tween of C5 -/

theorem Tween.tickValue_shift (t : Tween) (a : ℕ) {j : ℕ} (hj : 1 ≤ j) :
    t.tickValue (a + j) = (t.runTicks a).tickValue j := by
  rw [Tween.tickValue, Tween.tickValue, show a + j - 1 = a + (j - 1) from by omega,
      Tween.runTicks_add]

theorem pingTween_run4 : pingTween.runTicks 4 = pingBack := by
  have h := Tween.runTicks_boundary pingTween rfl rfl rfl (by decide)
  have h4 : pingTween.runTicks 4 =
      Tween.on_iteration_complete { pingTween with elapsed := 4 } := h
  rw [h4]
  simp [Tween.on_iteration_complete, pingBack, pingTween, Tween.with_loop,
    Tween.new]

theorem pingTween_run8 : pingTween.runTicks 8 = pingFwd := by
  rw [show (8 : ℕ) = 4 + 4 from rfl, Tween.runTicks_add, pingTween_run4]
  have h := Tween.runTicks_boundary pingBack rfl rfl rfl (by decide)
  have h4 : pingBack.runTicks 4 =
      Tween.on_iteration_complete { pingBack with elapsed := 4 } := h
  rw [h4]
  simp [Tween.on_iteration_complete, pingFwd, pingBack, pingTween,
    Tween.with_loop, Tween.new]

theorem pingTween_value4 : Tween.tickValue pingTween 4 = 10 := by
  rw [Tween.tickValue_of_le pingTween rfl rfl rfl (by norm_num) (by decide),
      Tween.value_linear_forward _ rfl (by decide) rfl rfl (by decide)]
  norm_num [pingTween, Tween.with_loop, Tween.new, flerp]

theorem pingTween_value_back (j : ℕ) (h1 : 1 ≤ j) (h4 : j ≤ 4) :
    Tween.tickValue pingTween (4 + j) =
      flerp 0 10 (1 - (j : ℝ) / 4) := by
  rw [Tween.tickValue_shift pingTween 4 h1, pingTween_run4,
      Tween.tickValue_of_le pingBack rfl rfl rfl h1
        (by simpa [pingBack, pingTween, Tween.with_loop, Tween.new] using h4),
      Tween.value_linear_backward { pingBack with elapsed := j } rfl
        (by norm_num [pingBack, pingTween, Tween.with_loop, Tween.new]) rfl rfl
        (by simpa [pingBack, pingTween, Tween.with_loop, Tween.new] using h4)]
  norm_num [pingBack, pingTween, Tween.with_loop, Tween.new]

theorem pingTween_value9 : Tween.tickValue pingTween 9 = 5 / 2 := by
  rw [show (9 : ℕ) = 8 + 1 from rfl, Tween.tickValue_shift pingTween 8 le_rfl,
      pingTween_run8,
      Tween.tickValue_of_le pingFwd rfl rfl rfl le_rfl (by decide),
      Tween.value_linear_forward _ rfl (by decide) rfl rfl (by decide)]
  norm_num [pingFwd, pingTween, Tween.with_loop, Tween.new, flerp]

/-- C5 counterexample: the 8th tick of the duration-4, 0→10 PingPong tween
returns 0 and the 9th returns 2.5 (the ping-pong has turned forward
again), so the values do not strictly decrease at every tick `k ≥ 5`:
at `k = 9` the value increases. -/
theorem C5_counterexample :
    Tween.tickValue pingTween 8 = 0 ∧
    Tween.tickValue pingTween 9 = 5 / 2 ∧
    ¬ Tween.tickValue pingTween 9 < Tween.tickValue pingTween 8 := by
  have h8 : Tween.tickValue pingTween 8 = 0 := by
    have := pingTween_value_back 4 (by norm_num) le_rfl
    norm_num [flerp] at this
    exact this
  refine ⟨h8, pingTween_value9, ?_⟩
  rw [h8, pingTween_value9]
  norm_num

/-- C5 (amended: the strict decrease holds on the backward leg only, ticks
5 through 8; at tick 9 the ping-pong has flipped forward again and the
value increases): the duration-4, 0→10 Linear PingPong tween returns 10 on
the 4th tick, and for every `5 ≤ k ≤ 8` the `k`-th tick returns a value
strictly less than the `(k-1)`-th. -/
theorem C5_pingpong_backward_leg_decreases :
    Tween.tickValue pingTween 4 = 10 ∧
    ∀ k, 5 ≤ k → k ≤ 8 →
      Tween.tickValue pingTween k < Tween.tickValue pingTween (k - 1) := by
  have hv : ∀ j, 1 ≤ j → j ≤ 4 →
      Tween.tickValue pingTween (4 + j) = flerp 0 10 (1 - (j : ℝ) / 4) :=
    fun j h1 h4 => pingTween_value_back j h1 h4
  refine ⟨pingTween_value4, ?_⟩
  intro k h5 h8
  interval_cases k
  · rw [show (5 : ℕ) - 1 = 4 from rfl, pingTween_value4,
        show (5 : ℕ) = 4 + 1 from rfl, hv 1 (by norm_num) (by norm_num)]
    norm_num [flerp]
  · rw [show (6 : ℕ) - 1 = 5 from rfl,
        show (6 : ℕ) = 4 + 2 from rfl, hv 2 (by norm_num) (by norm_num),
        show (5 : ℕ) = 4 + 1 from rfl, hv 1 (by norm_num) (by norm_num)]
    norm_num [flerp]
  · rw [show (7 : ℕ) - 1 = 6 from rfl,
        show (7 : ℕ) = 4 + 3 from rfl, hv 3 (by norm_num) (by norm_num),
        show (6 : ℕ) = 4 + 2 from rfl, hv 2 (by norm_num) (by norm_num)]
    norm_num [flerp]
  · rw [show (8 : ℕ) - 1 = 7 from rfl,
        show (8 : ℕ) = 4 + 4 from rfl, hv 4 (by norm_num) (by norm_num),
        show (7 : ℕ) = 4 + 3 from rfl, hv 3 (by norm_num) (by norm_num)]
    norm_num [flerp]

/-- Witness for C5 at `k = 5`. -/
theorem C5_witness :
    Tween.tickValue pingTween 4 = 10 ∧
    Tween.tickValue pingTween 5 < Tween.tickValue pingTween (5 - 1) :=
  ⟨C5_pingpong_backward_leg_decreases.1,
   C5_pingpong_backward_leg_decreases.2 5 (by norm_num) (by norm_num)⟩

/-! ### Helper lemmas: keyframe list validation -/

theorem validateFrom_ok_iff (n : ℕ) (l : List Keyframe) :
    validateFrom n l = .ok () ↔ l.Chain' (fun a b => a.tick ≤ b.tick) := by
  induction l generalizing n with
  | nil => simp [validateFrom]
  | cons a t ih =>
    cases t with
    | nil => simp [validateFrom]
    | cons b r =>
      simp only [validateFrom]
      by_cases h : b.tick < a.tick
      · have h' : ¬ a.tick ≤ b.tick := by omega
        simp [h, h', List.chain'_cons]
      · have h' : a.tick ≤ b.tick := by omega
        simp [h, h', List.chain'_cons, ih (n + 1)]

theorem validateFrom_error_spec (n : ℕ) (l : List Keyframe) (e : TweenError) :
    validateFrom n l = .error e →
    ∃ j fa fb, l.get? j = some fa ∧ l.get? (j + 1) = some fb ∧
      fb.tick < fa.tick ∧ e = .KeyframeOutOfOrder (n + j + 1) fb.tick fa.tick := by
  induction l generalizing n with
  | nil => simp [validateFrom]
  | cons a t ih =>
    cases t with
    | nil => simp [validateFrom]
    | cons b r =>
      simp only [validateFrom]
      by_cases h : b.tick < a.tick
      · rw [if_pos h]
        intro he
        obtain rfl := Except.error.inj he
        exact ⟨0, a, b, rfl, rfl, h, by simp⟩
      · rw [if_neg h]
        intro he
        obtain ⟨j, fa, fb, h1, h2, h3, h4⟩ := ih (n + 1) he
        refine ⟨j + 1, fa, fb, by simpa using h1, by simpa using h2, h3, ?_⟩
        rw [h4]
        congr 1
        omega

theorem chain'_iff_adjacent (l : List Keyframe) :
    l.Chain' (fun a b => a.tick ≤ b.tick) ↔
      ∀ j fa fb, l.get? j = some fa → l.get? (j + 1) = some fb →
        fa.tick ≤ fb.tick := by
  induction l with
  | nil => simp
  | cons a t ih =>
    cases t with
    | nil =>
      simp only [List.chain'_singleton, true_iff]
      intro j fa fb h1 h2
      rcases j with _ | m <;> simp_all
    | cons b r =>
      rw [List.chain'_cons, ih]
      constructor
      · rintro ⟨hab, h⟩ j fa fb h1 h2
        cases j with
        | zero =>
          simp only [List.get?] at h1 h2
          obtain rfl := Option.some.inj h1
          obtain rfl := Option.some.inj h2
          exact hab
        | succ m => exact h m fa fb (by simpa using h1) (by simpa using h2)
      · intro h
        exact ⟨h 0 a b rfl rfl,
          fun j fa fb h1 h2 => h (j + 1) fa fb (by simpa using h1)
            (by simpa using h2)⟩

/-- C6: `try_new` fails with `EmptyKeyframes` exactly on the empty list,
succeeds exactly on non-empty lists whose adjacent ticks are
non-decreasing (equal adjacent ticks are allowed), fails with
`KeyframeOutOfOrder` exactly when some frame's tick is strictly below its
predecessor's, and the error payload carries the offending index, its
tick, and the predecessor's tick. -/
theorem C6_try_new_validation :
    (∀ frames, Keyframes.try_new frames = .error .EmptyKeyframes ↔ frames = []) ∧
    (∀ frames, (∃ k, Keyframes.try_new frames = .ok k) ↔
      (frames ≠ [] ∧ frames.Chain' (fun a b => a.tick ≤ b.tick))) ∧
    (∀ frames, (∃ i tk pt,
        Keyframes.try_new frames = .error (.KeyframeOutOfOrder i tk pt)) ↔
      (∃ j fa fb, frames.get? j = some fa ∧ frames.get? (j + 1) = some fb ∧
        fb.tick < fa.tick)) ∧
    (∀ frames i tk pt,
      Keyframes.try_new frames = .error (.KeyframeOutOfOrder i tk pt) →
      1 ≤ i ∧ ∃ fa fb, frames.get? (i - 1) = some fa ∧ frames.get? i = some fb ∧
        fb.tick = tk ∧ fa.tick = pt ∧ tk < pt) := by
  have hval : ∀ a (t : List Keyframe),
      validate_frames (a :: t) = validateFrom 0 (a :: t) := by
    intro a t
    rfl
  refine ⟨?_, ?_, ?_, ?_⟩
  · intro frames
    cases frames with
    | nil => simp [Keyframes.try_new, validate_frames]
    | cons a t =>
      simp only [Keyframes.try_new, hval]
      cases hv : validateFrom 0 (a :: t) with
      | ok u => simp
      | error e =>
        obtain ⟨j, fa, fb, _, _, _, he⟩ := validateFrom_error_spec 0 (a :: t) e hv
        simp [he]
  · intro frames
    cases frames with
    | nil => simp [Keyframes.try_new, validate_frames]
    | cons a t =>
      simp only [Keyframes.try_new, hval]
      cases hv : validateFrom 0 (a :: t) with
      | ok u =>
        have := (validateFrom_ok_iff 0 (a :: t)).1 (by rw [hv])
        simp [this]
      | error e =>
        have hnot : ¬ (a :: t).Chain' (fun x y => x.tick ≤ y.tick) := by
          intro hc
          rw [← validateFrom_ok_iff 0 (a :: t)] at hc
          rw [hv] at hc
          exact absurd hc (by simp)
        simp [hnot]
  · intro frames
    cases frames with
    | nil => simp [Keyframes.try_new, validate_frames]
    | cons a t =>
      simp only [Keyframes.try_new, hval]
      cases hv : validateFrom 0 (a :: t) with
      | ok u =>
        have hc := (validateFrom_ok_iff 0 (a :: t)).1 (by rw [hv])
        rw [chain'_iff_adjacent] at hc
        simp only [Except.ok.injEq]
        constructor
        · rintro ⟨i, tk, pt, h⟩
          exact absurd h (by simp)
        · rintro ⟨j, fa, fb, h1, h2, h3⟩
          exact absurd (hc j fa fb h1 h2) (by omega)
      | error e =>
        obtain ⟨j, fa, fb, h1, h2, h3, he⟩ := validateFrom_error_spec 0 (a :: t) e hv
        constructor
        · intro _
          exact ⟨j, fa, fb, h1, h2, h3⟩
        · intro _
          exact ⟨0 + j + 1, fb.tick, fa.tick, by rw [he]⟩
  · intro frames i tk pt h
    cases frames with
    | nil =>
      rw [show Keyframes.try_new ([] : List Keyframe)
            = .error .EmptyKeyframes from rfl] at h
      exact absurd (Except.error.inj h) (by simp)
    | cons a t =>
      cases hv : validateFrom 0 (a :: t) with
      | ok u =>
        simp only [Keyframes.try_new, hval, hv] at h
        exact absurd h (by simp)
      | error e =>
        simp only [Keyframes.try_new, hval, hv] at h
        obtain rfl := Except.error.inj h
        obtain ⟨j, fa, fb, h1, h2, h3, he⟩ :=
          validateFrom_error_spec 0 (a :: t) _ hv
        obtain ⟨hi, htk, hpt⟩ := TweenError.KeyframeOutOfOrder.inj he
        refine ⟨by omega, fa, fb, ?_, ?_, htk.symm, hpt.symm, by omega⟩
        · rw [show i - 1 = j from by omega]
          exact h1
        · rw [show i = j + 1 from by omega]
          exact h2

/-- Witness for C6 at the empty list, a strictly-decreasing two-frame
list, and an equal-tick two-frame list. -/
theorem C6_witness :
    Keyframes.try_new ([] : List Keyframe) = .error .EmptyKeyframes ∧
    (1 ≤ 1 ∧ ∃ fa fb,
      ([⟨0, 5, .Linear⟩, ⟨0, 3, .Linear⟩] : List Keyframe).get? (1 - 1) = some fa ∧
      ([⟨0, 5, .Linear⟩, ⟨0, 3, .Linear⟩] : List Keyframe).get? 1 = some fb ∧
      fb.tick = 3 ∧ fa.tick = 5 ∧ 3 < 5) ∧
    (∃ k, Keyframes.try_new
      ([⟨0, 0, .Linear⟩, ⟨1, 0, .Linear⟩] : List Keyframe) = .ok k) :=
  ⟨(C6_try_new_validation.1 []).mpr rfl,
   C6_try_new_validation.2.2.2 [⟨0, 5, .Linear⟩, ⟨0, 3, .Linear⟩] 1 3 5
     (by simp [Keyframes.try_new, validate_frames, validateFrom]),
   (C6_try_new_validation.2.1 _).mpr ⟨by simp, by simp [List.chain'_cons]⟩⟩

/-! ### Helper lemmas: Timeline id allocation -/

theorem Timeline.add_snd (tl : Timeline) (s d : ℕ) : (tl.add s d).2 = tl.next_id :=
  rfl

theorem Timeline.runAdds_next_id (args : List (ℕ × ℕ)) (tl : Timeline)
    (h : tl.next_id ≤ UMAX) :
    (tl.runAdds args).next_id = min (tl.next_id + args.length) UMAX := by
  induction args generalizing tl with
  | nil =>
    simp only [Timeline.runAdds, List.length_nil, Nat.add_zero]
    omega
  | cons a rest ih =>
    simp only [Timeline.runAdds]
    rw [ih ((tl.add a.1 a.2).1) (by simp [Timeline.add, satAdd])]
    simp only [Timeline.add, satAdd, List.length_cons]
    omega

/-- C8 counterexample: the `2^32`-th and `2^32 + 1`-th `add` calls on a
fresh Timeline return the same id (`u32::MAX`), so ids are reused after
the saturating counter reaches the integer limit. -/
theorem C8_counterexample :
    ((Timeline.new.runAdds (List.replicate (2 ^ 32 - 1) (0, 0))).add 0 0).2 =
      ((Timeline.new.runAdds (List.replicate (2 ^ 32) (0, 0))).add 0 0).2 := by
  rw [Timeline.add_snd, Timeline.add_snd,
      Timeline.runAdds_next_id _ _ (Nat.zero_le _),
      Timeline.runAdds_next_id _ _ (Nat.zero_le _)]
  simp only [Timeline.new, List.length_replicate, UMAX]
  norm_num

/-- C8 (amended: ids are fresh only until the counter saturates): the id
returned by `add` after `n` prior `add` calls is `min n u32::MAX`
regardless of the arguments; hence ids are weakly monotone in the number
of prior calls, strictly increasing (never reused) while the counter is
below `u32::MAX`, and saturate at `u32::MAX` from the `2^32`-th call on. -/
theorem C8_add_id_saturating_monotone :
    (∀ (args : List (ℕ × ℕ)) (s d : ℕ),
      ((Timeline.new.runAdds args).add s d).2 = min args.length UMAX) ∧
    (∀ (args1 args2 : List (ℕ × ℕ)) (s1 d1 s2 d2 : ℕ),
      args1.length ≤ args2.length →
      ((Timeline.new.runAdds args1).add s1 d1).2 ≤
        ((Timeline.new.runAdds args2).add s2 d2).2) ∧
    (∀ (args1 args2 : List (ℕ × ℕ)) (s1 d1 s2 d2 : ℕ),
      args1.length < args2.length → args2.length ≤ UMAX →
      ((Timeline.new.runAdds args1).add s1 d1).2 <
        ((Timeline.new.runAdds args2).add s2 d2).2) ∧
    (∀ (args : List (ℕ × ℕ)) (s d : ℕ), UMAX ≤ args.length →
      ((Timeline.new.runAdds args).add s d).2 = UMAX) := by
  have hchar : ∀ (args : List (ℕ × ℕ)) (s d : ℕ),
      ((Timeline.new.runAdds args).add s d).2 = min args.length UMAX := by
    intro args s d
    rw [Timeline.add_snd, Timeline.runAdds_next_id _ _ (Nat.zero_le _)]
    simp [Timeline.new]
  refine ⟨hchar, ?_, ?_, ?_⟩ <;> intros <;> simp only [hchar] <;> omega

/-- Witness for C8: the first call returns id 0, and with one more prior
call the id strictly increases. -/
theorem C8_witness :
    ((Timeline.new.runAdds []).add 0 0).2 = min ([] : List (ℕ × ℕ)).length UMAX ∧
    ((Timeline.new.runAdds []).add 0 0).2 <
      ((Timeline.new.runAdds [(0, 0)]).add 0 0).2 :=
  ⟨C8_add_id_saturating_monotone.1 [] 0 0,
   C8_add_id_saturating_monotone.2.2.1 [] [(0, 0)] 0 0 0 0 (by norm_num)
     (by norm_num [UMAX])⟩

/-! ### Helper lemmas: Sequence assertions and the index invariant -/

theorem Sequence.tick_empty (s : Sequence) (h : s.tweens = []) : s.tick = none := by
  rw [Sequence.tick, if_pos (by simp [h])]

theorem Sequence.value_empty (s : Sequence) (h : s.tweens = []) :
    s.value = none := by
  rw [Sequence.value, if_pos (by simp [h])]

theorem Sequence.value_isSome (s : Sequence) (hne : s.tweens ≠ [])
    (hidx : s.current_index < s.tweens.length) : (s.value).isSome = true := by
  rw [Sequence.value, if_neg (by simpa using hne), List.get?_eq_get hidx]
  simp

theorem Sequence.tick_isSome (s : Sequence) (hne : s.tweens ≠ [])
    (hidx : s.current_index < s.tweens.length) : (s.tick).isSome = true := by
  rw [Sequence.tick, if_neg (by simpa using hne)]
  by_cases hst : s.state ≠ .Playing
  · rw [if_pos hst]
    have hv := Sequence.value_isSome s hne hidx
    rcases hw : s.value with _ | w
    · rw [hw] at hv
      simp at hv
    · simp
  · rw [if_neg hst, List.get?_eq_get hidx]
    simp

theorem Sequence.osc_inv (s : Sequence) (h0 : s.tweens ≠ [])
    (hidx : s.current_index < s.tweens.length) :
    SeqInv s.on_sequence_complete := by
  have hlen : 0 < s.tweens.length := List.length_pos.mpr h0
  left
  cases hl : s.loop_mode with
  | Once => simpa [Sequence.on_sequence_complete, hl] using hidx
  | Count c =>
    simp only [Sequence.on_sequence_complete, hl]
    split_ifs with h
    · simpa using hidx
    · simp only [Sequence.restart]
      simp [List.length_map]
      omega
  | Infinite =>
    simpa [Sequence.on_sequence_complete, hl, Sequence.restart] using hlen
  | PingPong =>
    simpa [Sequence.on_sequence_complete, hl, Sequence.restart] using hlen
  | PingPongCount c =>
    simp only [Sequence.on_sequence_complete, hl]
    split_ifs with h
    · simpa using hidx
    · simp only [Sequence.restart]
      simp [List.length_map]
      omega

theorem Sequence.push_inv (s : Sequence) (t : Tween) (h : SeqInv s) :
    SeqInv (s.push t) := by
  rcases h with h | ⟨h1, h2⟩
  · left
    simp [Sequence.push]
    omega
  · left
    simp [Sequence.push, h1, h2]

theorem Sequence.tick_inv (s : Sequence) (hinv : SeqInv s) {s' : Sequence}
    {v : ℝ} (h : s.tick = some (s', v)) : SeqInv s' := by
  rw [Sequence.tick] at h
  by_cases hemp : s.tweens.isEmpty = true
  · rw [if_pos hemp] at h
    exact absurd h (by simp)
  · rw [if_neg hemp] at h
    have hne : s.tweens ≠ [] := by simpa using hemp
    have hidx : s.current_index < s.tweens.length := by
      rcases hinv with h' | ⟨h1, _⟩
      · exact h'
      · exact absurd h1 hne
    by_cases hst : s.state ≠ .Playing
    · rw [if_pos hst] at h
      rcases hw : s.value with _ | w
      · rw [hw] at h
        exact absurd h (by simp)
      · rw [hw] at h
        simp only [Option.map_some'] at h
        obtain ⟨hs', -⟩ := Prod.mk.inj (Option.some.inj h)
        exact hs' ▸ hinv
    · rw [if_neg hst, List.get?_eq_get hidx] at h
      set tw := s.tweens.get ⟨s.current_index, hidx⟩ with htw
      obtain ⟨hs', -⟩ := Prod.mk.inj (Option.some.inj h)
      subst hs'
      set s1 : Sequence :=
        { s with tweens := s.tweens.set s.current_index (tw.tick).1 } with hs1
      have hs1len : s1.tweens.length = s.tweens.length := by
        simp [hs1]
      have hlen0 : 0 < s.tweens.length := List.length_pos.mpr hne
      by_cases hfin : (tw.tick).1.is_finished = true
      · rw [if_pos hfin]
        by_cases hlt : s1.current_index + 1 < s1.tweens.length
        · rw [if_pos hlt]
          left
          simpa using hlt
        · rw [if_neg hlt]
          exact Sequence.osc_inv s1
            (List.length_pos.mp (by rw [hs1len]; exact hlen0))
            (by simpa [hs1, List.length_set] using hidx)
      · rw [if_neg hfin]
        left
        simpa [hs1, List.length_set] using hidx

/-- C10: `tick`/`value` on a Sequence with no tweens hit the assertion
(modelled as `none`); every state reachable through `new`, `push`, and
successful `tick` keeps the current index in bounds, and under that
invariant a non-empty Sequence's `tick` and `value` always succeed (the
assertion branch is unreachable). -/
theorem C10_sequence_assert_totality :
    (∀ s : Sequence, s.tweens = [] → s.tick = none ∧ s.value = none) ∧
    (∀ s : Sequence, SeqReach s → SeqInv s) ∧
    (∀ s : Sequence, SeqReach s → s.tweens ≠ [] →
      (s.tick).isSome = true ∧ (s.value).isSome = true) := by
  have hreach : ∀ s : Sequence, SeqReach s → SeqInv s := by
    intro s hr
    induction hr with
    | new => exact Or.inr ⟨rfl, rfl⟩
    | push s t _ ih => exact Sequence.push_inv s t ih
    | tick s s' v _ heq ih => exact Sequence.tick_inv s ih heq
  refine ⟨fun s h => ⟨Sequence.tick_empty s h, Sequence.value_empty s h⟩,
    hreach, fun s hr hne => ?_⟩
  have hidx : s.current_index < s.tweens.length := by
    rcases hreach s hr with h | ⟨h1, _⟩
    · exact h
    · exact absurd h1 hne
  exact ⟨Sequence.tick_isSome s hne hidx, Sequence.value_isSome s hne hidx⟩

/-- Witness for C10: the empty sequence panics, and a sequence with one
pushed tween ticks and reads successfully. -/
theorem C10_witness :
    (Sequence.new.tick = none ∧ Sequence.new.value = none) ∧
    ((Sequence.new.push (Tween.new 0 1 5)).tick).isSome = true ∧
    ((Sequence.new.push (Tween.new 0 1 5)).value).isSome = true :=
  ⟨C10_sequence_assert_totality.1 Sequence.new rfl,
   C10_sequence_assert_totality.2.2 (Sequence.new.push (Tween.new 0 1 5))
     (SeqReach.push Sequence.new (Tween.new 0 1 5) SeqReach.new)
     (by simp [Sequence.new, Sequence.push])⟩

/-! ### Helper lemmas: the degenerate cubic Bézier of C7 -/

theorem bc01 (s : ℝ) : bezier_component s 0 1 = 3 * s ^ 2 - 2 * s ^ 3 := by
  simp only [bezier_component]
  ring

theorem bc01_zero : bezier_component 0 0 1 = 0 := by
  rw [bc01]
  norm_num

theorem bc01_one : bezier_component 1 0 1 = 1 := by
  rw [bc01]
  norm_num

theorem bc01_diff_le {a b : ℝ} (hab : a ≤ b) :
    bezier_component b 0 1 - bezier_component a 0 1 ≤ 3 / 2 * (b - a) := by
  rw [bc01, bc01]
  nlinarith [mul_nonneg (sub_nonneg.mpr hab) (sq_nonneg (4 * a + 2 * b - 3)),
    mul_nonneg (sub_nonneg.mpr hab) (sq_nonneg (2 * b - 1))]

theorem bisectLoop_spec (t : ℝ) (n : ℕ) :
    ∀ s lo hi : ℝ, lo ≤ hi →
      bezier_component lo 0 1 < t → t ≤ bezier_component hi 0 1 →
      (s = lo ∨ s = hi) →
      ∃ lo' hi', lo ≤ lo' ∧ lo' ≤ hi' ∧ hi' ≤ hi ∧
        hi' - lo' ≤ (hi - lo) / 2 ^ n ∧
        bezier_component lo' 0 1 < t ∧ t ≤ bezier_component hi' 0 1 ∧
        (bisectLoop t 0 1 n s lo hi = lo' ∨ bisectLoop t 0 1 n s lo hi = hi') := by
  induction n with
  | zero =>
    intro s lo hi hle hlo hhi hs
    exact ⟨lo, hi, le_rfl, hle, le_rfl, by simp, hlo, hhi, by
      rw [bisectLoop]
      exact hs⟩
  | succ m ih =>
    intro s lo hi hle hlo hhi hs
    simp only [bisectLoop]
    by_cases hbx : bezier_component ((lo + hi) / 2) 0 1 < t
    · rw [if_pos hbx]
      obtain ⟨lo', hi', a1, a2, a3, a4, a5, a6, a7⟩ :=
        ih ((lo + hi) / 2) ((lo + hi) / 2) hi (by linarith) hbx hhi (Or.inl rfl)
      refine ⟨lo', hi', by linarith, a2, a3, ?_, a5, a6, a7⟩
      have h2 : hi - (lo + hi) / 2 = (hi - lo) / 2 := by ring
      have h3 : (hi - (lo + hi) / 2) / 2 ^ m = (hi - lo) / 2 ^ (m + 1) := by
        rw [h2, pow_succ]
        ring
      rw [← h3]
      exact a4
    · rw [if_neg hbx]
      push_neg at hbx
      obtain ⟨lo', hi', a1, a2, a3, a4, a5, a6, a7⟩ :=
        ih ((lo + hi) / 2) lo ((lo + hi) / 2) (by linarith) hlo hbx (Or.inr rfl)
      refine ⟨lo', hi', a1, a2, by linarith, ?_, a5, a6, a7⟩
      have h2 : (lo + hi) / 2 - lo = (hi - lo) / 2 := by ring
      have h3 : ((lo + hi) / 2 - lo) / 2 ^ m = (hi - lo) / 2 ^ (m + 1) := by
        rw [h2, pow_succ]
        ring
      rw [← h3]
      exact a4

theorem bisectLoop_spec_any_start (t : ℝ) (m : ℕ) (s lo hi : ℝ) (hle : lo ≤ hi)
    (hlo : bezier_component lo 0 1 < t) (hhi : t ≤ bezier_component hi 0 1) :
    ∃ lo' hi', lo ≤ lo' ∧ lo' ≤ hi' ∧ hi' ≤ hi ∧
      hi' - lo' ≤ (hi - lo) / 2 ^ m ∧
      bezier_component lo' 0 1 < t ∧ t ≤ bezier_component hi' 0 1 ∧
      (bisectLoop t 0 1 (m + 1) s lo hi = lo' ∨
        bisectLoop t 0 1 (m + 1) s lo hi = hi') := by
  simp only [bisectLoop]
  by_cases hbx : bezier_component ((lo + hi) / 2) 0 1 < t
  · rw [if_pos hbx]
    obtain ⟨lo', hi', a1, a2, a3, a4, a5, a6, a7⟩ :=
      bisectLoop_spec t m ((lo + hi) / 2) ((lo + hi) / 2) hi (by linarith) hbx hhi
        (Or.inl rfl)
    refine ⟨lo', hi', by linarith, a2, a3, ?_, a5, a6, a7⟩
    have hmono : (hi - (lo + hi) / 2) / 2 ^ m ≤ (hi - lo) / 2 ^ m := by
      have hp : (0 : ℝ) < 2 ^ m := by positivity
      exact (div_le_div_iff_of_pos_right hp).mpr (by linarith)
    exact a4.trans hmono
  · rw [if_neg hbx]
    push_neg at hbx
    obtain ⟨lo', hi', a1, a2, a3, a4, a5, a6, a7⟩ :=
      bisectLoop_spec t m ((lo + hi) / 2) lo ((lo + hi) / 2) (by linarith) hlo hbx
        (Or.inr rfl)
    refine ⟨lo', hi', a1, a2, by linarith, ?_, a5, a6, a7⟩
    have hmono : ((lo + hi) / 2 - lo) / 2 ^ m ≤ (hi - lo) / 2 ^ m := by
      have hp : (0 : ℝ) < 2 ^ m := by positivity
      exact (div_le_div_iff_of_pos_right hp).mpr (by linarith)
    exact a4.trans hmono

theorem cubic_bezier_linear_close (t : ℝ) (h0 : 0 ≤ t) (h1 : t ≤ 1) :
    |cubic_bezier t 0 0 1 1 - t| ≤ 1e-5 := by
  rcases eq_or_lt_of_le h0 with h | ht0
  · rw [← h]
    norm_num [cubic_bezier]
  rcases eq_or_lt_of_le h1 with h | ht1
  · rw [h]
    norm_num [cubic_bezier]
  simp only [cubic_bezier]
  rw [if_neg (by linarith), if_neg (by linarith)]
  set s0 := newtonLoop t 0 1 8 t with hs0
  by_cases hres : |bezier_component s0 0 1 - t| > 1e-5
  · rw [if_pos hres]
    rw [show bisectLoop t 0 1 20 s0 0 1 = bisectLoop t 0 1 (19 + 1) s0 0 1 from rfl]
    obtain ⟨lo', hi', a1, a2, a3, a4, a5, a6, a7⟩ :=
      bisectLoop_spec_any_start t 19 s0 0 1 (by norm_num)
        (by rw [bc01_zero]; exact ht0) (by rw [bc01_one]; exact le_of_lt ht1)
    have hb : bezier_component hi' 0 1 - bezier_component lo' 0 1 ≤
        3 / 2 * (hi' - lo') := bc01_diff_le a2
    have hw : hi' - lo' ≤ 1 / 2 ^ 19 := by
      have : ((1 : ℝ) - 0) / 2 ^ 19 = 1 / 2 ^ 19 := by ring
      rw [← this]
      exact a4
    have hnum : (3 : ℝ) / 2 * (1 / 2 ^ 19) ≤ 1e-5 := by norm_num
    rcases a7 with h | h <;> rw [h, abs_le] <;> constructor <;> nlinarith
  · rw [if_neg hres]
    push_neg at hres
    exact hres

/-- C7: the degenerate cubic Bézier with control points (0,0) and (1,1)
returns `t` on [0,1] up to the solver's stated residual tolerance `1e-5`
(for this configuration the output y-polynomial equals the x-polynomial,
so the Newton residual test or the 20-step bisection bounds the output
error), and for every set of control points the input is clamped: `t ≤ 0`
yields 0 and `t ≥ 1` yields 1. -/
theorem C7_cubic_bezier_linear_and_clamp :
    (∀ t : ℝ, 0 ≤ t → t ≤ 1 → |cubic_bezier t 0 0 1 1 - t| ≤ 1e-5) ∧
    (∀ t x1 y1 x2 y2 : ℝ, t ≤ 0 → cubic_bezier t x1 y1 x2 y2 = 0) ∧
    (∀ t x1 y1 x2 y2 : ℝ, 1 ≤ t → cubic_bezier t x1 y1 x2 y2 = 1) := by
  refine ⟨cubic_bezier_linear_close, ?_, ?_⟩
  · intro t x1 y1 x2 y2 h
    rw [cubic_bezier, if_pos h]
  · intro t x1 y1 x2 y2 h
    rw [cubic_bezier, if_neg (by linarith), if_pos h]

/-- Witness for C7 at `t = 1/2` (exact midpoint) and out-of-range inputs
with the CSS-ease control points. -/
theorem C7_witness :
    |cubic_bezier (1 / 2) 0 0 1 1 - 1 / 2| ≤ 1e-5 ∧
    cubic_bezier (-2) 0.25 0.1 0.25 1 = 0 ∧
    cubic_bezier 3 0.25 0.1 0.25 1 = 1 :=
  ⟨C7_cubic_bezier_linear_and_clamp.1 (1 / 2) (by norm_num) (by norm_num),
   C7_cubic_bezier_linear_and_clamp.2.1 (-2) 0.25 0.1 0.25 1 (by norm_num),
   C7_cubic_bezier_linear_and_clamp.2.2 3 0.25 0.1 0.25 1 (by norm_num)⟩

/-- C9: `set_target` on any spring state sets the target, clears `at_rest`,
and leaves value, velocity, and config untouched. -/
theorem C9_set_target_wakes_spring (s : SpringTween) (x : ℝ) :
    (s.set_target x).target = x ∧ (s.set_target x).at_rest = false ∧
    (s.set_target x).value = s.value ∧ (s.set_target x).velocity = s.velocity ∧
    (s.set_target x).config = s.config :=
  ⟨rfl, rfl, rfl, rfl, rfl⟩

end

end Easel
